import Mathlib

/-!
# Verification of the Mini-minecraft terrain / physics core

Shallow embedding of the repository's terrain generators (`Chunk`,
`VolumetricTerrain`, `VolumetricChunk`), the chunk-streaming manager and the
player physics controller (`MinecraftAnimation`), together with proofs about
the properties claimed of them.

Modelling conventions:
* JavaScript numbers are modelled by exact rationals `ℚ` (the computations the
  claims are about stay well inside the exactly-representable range in spirit;
  no claim here is about IEEE rounding).
* The 32-bit integer scrambling of the seeded RNG (`createRNG` / mulberry32)
  is modelled on `ℕ` with explicit reduction `% 2^32`; JavaScript's signed
  coercions (`|0`, `Math.imul`) only ever feed further bit-pattern operations,
  so tracking the unsigned bit pattern is exact.
* The ambient `Math.random()` source used by ore/lava placement is modelled as
  an explicit stream `rand : ℕ → ℚ` consumed with a running counter, exactly
  in the order the source draws from it.
* `null` entries of the volumetric block array are `Option.none`.
-/

namespace MiniMinecraft

/-! ## Seeded RNG: `createRNG` (string hash + mulberry32), VolumetricTerrain.ts -/

/-- `2^32`, the modulus of all 32-bit operations. -/
def U32 : ℕ := 4294967296

/-- One step of the seed-string hash in `createRNG`:
`hash = ((hash << 5) - hash) + charCode; hash |= 0`.
On bit patterns this is `(32*h - h + c) mod 2^32 = (31*h + c) mod 2^32`. -/
def hashStep (h c : ℕ) : ℕ := (31 * h + c) % U32

/-- The full seed-string hash of `createRNG` (char codes are ASCII here). -/
def hashString (s : String) : ℕ := s.data.foldl (fun h c => hashStep h c.toNat) 0

/-- The mulberry32 additive constant `0x6D2B79F5`. -/
def MULB : ℕ := 0x6D2B79F5

/-- The mulberry32 output scrambler applied to the updated state, on 32-bit
patterns: `t = imul(s ^ (s >>> 15), 1 | s)`;
`t = (t + imul(t ^ (t >>> 7), 61 | t)) ^ t`; output pattern `t ^ (t >>> 14)`. -/
def mulScramble (s : ℕ) : ℕ :=
  let t1 := ((s ^^^ (s >>> 15)) * (s ||| 1)) % U32
  let t2 := ((t1 + ((t1 ^^^ (t1 >>> 7)) * (t1 ||| 61)) % U32) % U32) ^^^ t1
  t2 ^^^ (t2 >>> 14)

/-- The `k`-th (0-indexed) draw of a mulberry32 stream started from hash `h`:
each call first does `state = (state + 0x6D2B79F5) | 0`, so the `k`-th call
scrambles `(h + (k+1)·MULB) mod 2^32`, and divides the pattern by `2^32`. -/
def mulberryDraw (h k : ℕ) : ℚ :=
  (mulScramble ((h + (k + 1) * MULB) % U32) : ℚ) / (U32 : ℚ)

/-! ## Interpolation primitives (both generators) -/

/-- `lerp(a, b, t) = a + t * (b - a)`. -/
def lerp (a b t : ℚ) : ℚ := a + t * (b - a)

/-- `smoothStep(t) = t * t * (3 - 2 * t)` (VolumetricTerrain.ts). -/
def smoothStep (t : ℚ) : ℚ := t * t * (3 - 2 * t)

/-- `VolumetricTerrain.bilinearInterpolation`: corner lookup with edge
clamping (`x2 = min(x1 + 1, rows - 1)`), smoothstep-weighted lerp.
Grids are total functions indexed over `ℕ`; all call sites keep the raw
indices inside `[0, rows) × [0, cols)`, where the function agrees with the
source's array. -/
def bilinearInterpolation (grid : ℕ → ℕ → ℚ) (rows cols : ℕ) (x z : ℚ) : ℚ :=
  let x1 : ℤ := ⌊x⌋
  let x2 : ℤ := min (x1 + 1) ((rows : ℤ) - 1)
  let z1 : ℤ := ⌊z⌋
  let z2 : ℤ := min (z1 + 1) ((cols : ℤ) - 1)
  let fx : ℚ := x - (x1 : ℚ)
  let fz : ℚ := z - (z1 : ℚ)
  let c11 := grid x1.toNat z1.toNat
  let c21 := grid x2.toNat z1.toNat
  let c12 := grid x1.toNat z2.toNat
  let c22 := grid x2.toNat z2.toNat
  let wx := smoothStep fx
  let wz := smoothStep fz
  lerp (lerp c11 c21 wx) (lerp c12 c22 wx) wz

/-- `Chunk.bilinearInterpolation` (height-field generator): identical corner
lookup and clamping, but the lerp weights are the raw fractional parts —
this version applies no smoothstep. -/
def chunkBilinearInterpolation (grid : ℕ → ℕ → ℚ) (rows cols : ℕ) (x z : ℚ) : ℚ :=
  let x1 : ℤ := ⌊x⌋
  let x2 : ℤ := min (x1 + 1) ((rows : ℤ) - 1)
  let z1 : ℤ := ⌊z⌋
  let z2 : ℤ := min (z1 + 1) ((cols : ℤ) - 1)
  let fx : ℚ := x - (x1 : ℚ)
  let fz : ℚ := z - (z1 : ℚ)
  let c11 := grid x1.toNat z1.toNat
  let c21 := grid x2.toNat z1.toNat
  let c12 := grid x1.toNat z2.toNat
  let c22 := grid x2.toNat z2.toNat
  lerp (lerp c11 c21 fx) (lerp c12 c22 fx) fz

/-- `VolumetricTerrain.trilinearInterpolation`: 8 corners, edge clamping,
smoothstep weights on all three axes. -/
def trilinearInterpolation (grid : ℕ → ℕ → ℕ → ℚ) (d1 d2 d3 : ℕ) (x y z : ℚ) : ℚ :=
  let x1 : ℤ := ⌊x⌋
  let x2 : ℤ := min (x1 + 1) ((d1 : ℤ) - 1)
  let y1 : ℤ := ⌊y⌋
  let y2 : ℤ := min (y1 + 1) ((d2 : ℤ) - 1)
  let z1 : ℤ := ⌊z⌋
  let z2 : ℤ := min (z1 + 1) ((d3 : ℤ) - 1)
  let fx : ℚ := x - (x1 : ℚ)
  let fy : ℚ := y - (y1 : ℚ)
  let fz : ℚ := z - (z1 : ℚ)
  let wx := smoothStep fx
  let wy := smoothStep fy
  let wz := smoothStep fz
  let c000 := grid x1.toNat y1.toNat z1.toNat
  let c100 := grid x2.toNat y1.toNat z1.toNat
  let c010 := grid x1.toNat y2.toNat z1.toNat
  let c110 := grid x2.toNat y2.toNat z1.toNat
  let c001 := grid x1.toNat y1.toNat z2.toNat
  let c101 := grid x2.toNat y1.toNat z2.toNat
  let c011 := grid x1.toNat y2.toNat z2.toNat
  let c111 := grid x2.toNat y2.toNat z2.toNat
  let e00 := lerp c000 c100 wx
  let e10 := lerp c010 c110 wx
  let e01 := lerp c001 c101 wx
  let e11 := lerp c011 c111 wx
  let p0 := lerp e00 e10 wy
  let p1 := lerp e01 e11 wy
  lerp p0 p1 wz

/-! ## Height-field generator (`Chunk`) -/

/-- The chunk seed string: backtick template `chunkX,chunkZ`. -/
def chunkSeedStr (cx cz : ℤ) : String := toString cx ++ "," ++ toString cz

/-- Modelled from the spec: the height-field `Chunk` draws its white-noise
grids from the external `rand-seed` library (`new Rand(seed)`; the library's
source is not part of this repository). The spec's noise-engine contract is
"each cell drawn from a counter-free, seed-keyed pseudo-random stream (e.g. a
hash-seeded small PRNG such as mulberry32); identical seed ⇒ identical grid,
always", so `Rand` is modelled by the same hash-seeded mulberry32 stream the
volumetric generator's `createRNG` uses.  Row `i`, column `j` receives the
`(i*gsize + j)`-th draw, matching the fill order of
`Chunk.generateWhiteNoiseGrid` (seed = `seed ++ "-" ++ octave`). -/
def chunkWhiteNoiseGrid (seedStr : String) (gsize octave : ℕ) : ℕ → ℕ → ℚ :=
  fun i j => mulberryDraw (hashString (seedStr ++ "-" ++ toString octave)) (i * gsize + j)

/-- `Chunk.generateHeightMap`, accumulation phase: three octaves
(`baseScale = 4`, `persistence = 0.5`), `gridSize = ⌊size / (4·2^octave)⌋`,
each octave adding `bilinear(grid, x, z) * 0.5^octave * 20` at sample
coordinates `(i/size)·(gridSize-1)`. -/
def chunkHeightsPre (cx cz : ℤ) (size : ℕ) (i j : ℕ) : ℚ :=
  (List.range 3).foldl (fun acc octave =>
    let gridSize := size / (4 * 2 ^ octave)
    let grid := chunkWhiteNoiseGrid (chunkSeedStr cx cz) gridSize octave
    let x : ℚ := ((i : ℚ) / (size : ℚ)) * ((gridSize : ℚ) - 1)
    let z : ℚ := ((j : ℚ) / (size : ℚ)) * ((gridSize : ℚ) - 1)
    acc + chunkBilinearInterpolation grid gridSize gridSize x z * ((1 / 2 : ℚ) ^ octave) * 20) 0

/-- `Chunk.generateHeightMap`, final phase: `heights[i][j] =
min(100, max(0, floor(accumulated + 40)))`. -/
def chunkHeights (cx cz : ℤ) (size : ℕ) (i j : ℕ) : ℚ :=
  min 100 (max 0 ((⌊chunkHeightsPre cx cz size i j + 40⌋ : ℤ) : ℚ))

/-- `Chunk.getHeightAt`: local coordinates are floors of the offsets from the
chunk origin `(center - size/2)`; in bounds returns `heights[localZ][localX]`
(note the source's index swap), otherwise the sentinel `-1`. Parametrised by
the height grid so it also serves synthetic chunks in physics tests. -/
def chunkGetHeightAt (cx cz : ℤ) (size : ℕ) (heights : ℕ → ℕ → ℚ) (wx wz : ℚ) : ℚ :=
  let localX : ℤ := ⌊wx - ((cx : ℚ) - (size : ℚ) / 2)⌋
  let localZ : ℤ := ⌊wz - ((cz : ℚ) - (size : ℚ) / 2)⌋
  if 0 ≤ localX ∧ localX < (size : ℤ) ∧ 0 ≤ localZ ∧ localZ < (size : ℤ) then
    heights localZ.toNat localX.toNat
  else -1

/-! ## Volumetric generator (`VolumetricTerrain`) -/

/-- The volumetric chunk seed string, also `chunkX,chunkZ`. -/
def vSeedStr (cx cz : ℤ) : String := toString cx ++ "," ++ toString cz

/-- `VolumetricTerrain.generateWhiteNoiseGrid`: row `i`, column `j` holds the
`(i*size + j)`-th draw of the `createRNG(seed)` stream (row-major fill). -/
def vWhiteNoiseGrid (seed : String) (size : ℕ) : ℕ → ℕ → ℚ :=
  fun i j => mulberryDraw (hashString seed) (i * size + j)

/-- `VolumetricTerrain.generate3DNoiseGrid`: cell `(i,j,k)` holds the
`(i*size² + j*size + k)`-th draw of the `createRNG(seed)` stream. -/
def vNoiseGrid3D (seed : String) (size : ℕ) : ℕ → ℕ → ℕ → ℚ :=
  fun i j k => mulberryDraw (hashString seed) (i * size * size + j * size + k)

/-- The cell scan order of the source's doubly nested `for` loops:
outer `x`, inner `z`. -/
def cellsList2 (w h : ℕ) : List (ℕ × ℕ) := (List.range w) ×ˢ (List.range h)

/-- The cell scan order of the triply nested `for` loops:
outer `x`, middle `y`, inner `z`. -/
def cellsList3 (a b c : ℕ) : List (ℕ × ℕ × ℕ) :=
  (List.range a) ×ˢ ((List.range b) ×ˢ (List.range c))

/-- `VolumetricTerrain.generate2DNoise`, accumulation phase: octave
accumulation (`octaveScale = scale/2^o`, amplitude `0.5^o`,
`gridSize = max(4, ceil(max(w,h)/octaveScale))`, seed suffix `-oct<o>`). -/
def gen2DRaw (w h : ℕ) (scale : ℚ) (seed : String) (octaves : ℕ) (x z : ℕ) : ℚ :=
  (List.range octaves).foldl (fun acc o =>
    let octScale := scale / 2 ^ o
    let amplitude : ℚ := (1 / 2) ^ o
    let gridSize := (max 4 ⌈((max w h : ℕ) : ℚ) / octScale⌉).toNat
    let grid := vWhiteNoiseGrid (seed ++ "-oct" ++ toString o) gridSize
    let nx := ((x : ℚ) / (w : ℚ)) * ((gridSize : ℚ) - 1)
    let nz := ((z : ℚ) / (h : ℚ)) * ((gridSize : ℚ) - 1)
    acc + bilinearInterpolation grid gridSize gridSize nx nz * amplitude) 0

/-- The `min` scan of the normalization phase (initialised at `1.0`). -/
def gen2DMin (w h : ℕ) (scale : ℚ) (seed : String) (octaves : ℕ) : ℚ :=
  (cellsList2 w h).foldl (fun m c => min m (gen2DRaw w h scale seed octaves c.1 c.2)) 1

/-- The `max` scan of the normalization phase (initialised at `0.0`). -/
def gen2DMax (w h : ℕ) (scale : ℚ) (seed : String) (octaves : ℕ) : ℚ :=
  (cellsList2 w h).foldl (fun m c => max m (gen2DRaw w h scale seed octaves c.1 c.2)) 0

/-- `VolumetricTerrain.generate2DNoise`: the raw octave accumulation
followed by min/max normalization over all cells, skipped when the range is
`≤ 0.001`. -/
def generate2DNoise (w h : ℕ) (scale : ℚ) (seed : String) (octaves : ℕ) (x z : ℕ) : ℚ :=
  if 1 / 1000 < gen2DMax w h scale seed octaves - gen2DMin w h scale seed octaves then
    (gen2DRaw w h scale seed octaves x z - gen2DMin w h scale seed octaves) /
      (gen2DMax w h scale seed octaves - gen2DMin w h scale seed octaves)
  else gen2DRaw w h scale seed octaves x z

/-- `VolumetricTerrain.generate3DNoise`: dimensions are capped at 16, the
per-octave grid size at 8; trilinear octave accumulation, min/max
normalization, and (when a dimension was capped) trilinear upscaling back to
the requested size (`interpolate3DToSize`). -/
def generate3DNoise (w h d : ℕ) (scale : ℚ) (seed : String) (octaves : ℕ) :
    ℕ → ℕ → ℕ → ℚ :=
  let aw := min w 16
  let ah := min h 16
  let ad := min d 16
  let raw : ℕ → ℕ → ℕ → ℚ := fun x y z =>
    (List.range octaves).foldl (fun acc o =>
      let octScale := scale / 2 ^ o
      let amplitude : ℚ := (1 / 2) ^ o
      let gridSize := (max 4 ⌈((max aw (max ah ad) : ℕ) : ℚ) / octScale⌉).toNat
      let capped := min gridSize 8
      let grid := vNoiseGrid3D (seed ++ "-oct" ++ toString o) capped
      let nx := ((x : ℚ) / (aw : ℚ)) * ((capped : ℚ) - 1)
      let ny := ((y : ℚ) / (ah : ℚ)) * ((capped : ℚ) - 1)
      let nz := ((z : ℚ) / (ad : ℚ)) * ((capped : ℚ) - 1)
      acc + trilinearInterpolation grid capped capped capped nx ny nz * amplitude) 0
  let minV := (cellsList3 aw ah ad).foldl (fun m c => min m (raw c.1 c.2.1 c.2.2)) 1
  let maxV := (cellsList3 aw ah ad).foldl (fun m c => max m (raw c.1 c.2.1 c.2.2)) 0
  let range := maxV - minV
  let normed : ℕ → ℕ → ℕ → ℚ :=
    if 1 / 1000 < range then fun x y z => (raw x y z - minV) / range else raw
  if aw < w ∨ ah < h ∨ ad < d then
    fun x y z =>
      let sx := ((x : ℚ) / (w : ℚ)) * ((aw : ℚ) - 1)
      let sy := ((y : ℚ) / (h : ℚ)) * ((ah : ℚ) - 1)
      let sz := ((z : ℚ) / (d : ℚ)) * ((ad : ℚ) - 1)
      trilinearInterpolation normed aw ah ad sx sy sz
  else normed

/-- One octave's interpolated sample of the surface pipeline: the bilinear
value of the `-surface-<o>`-seeded white-noise grid at the mapped
coordinates (`scale = 12/2^o` from lacunarity 2,
`gridSize = max(4, floor(size/scale))`). -/
def vSurfaceSample (cx cz : ℤ) (size o x z : ℕ) : ℚ :=
  let scale : ℚ := 12 / 2 ^ o
  let gridSize := (max 4 ⌊(size : ℚ) / scale⌋).toNat
  let grid := vWhiteNoiseGrid (vSeedStr cx cz ++ "-surface-" ++ toString o) gridSize
  let nx := ((x : ℚ) / (size : ℚ)) * ((gridSize : ℚ) - 1)
  let nz := ((z : ℚ) / (size : ℚ)) * ((gridSize : ℚ) - 1)
  bilinearInterpolation grid gridSize gridSize nx nz

/-- `VolumetricTerrain.generateSurfaceHeightMap`, octave phase: base height
40, three octaves, each adding `(value - 0.5) * (24·0.5^o)`
(`heightScale = 24`, persistence 0.5). -/
def vSurfacePre (cx cz : ℤ) (size : ℕ) (x z : ℕ) : ℚ :=
  (List.range 3).foldl (fun acc o =>
    acc + (vSurfaceSample cx cz size o x z - 1 / 2) * (24 * (1 / 2 : ℚ) ^ o)) 40

/-- The biome noise field: `generate2DNoise(size, size, BIOME_SCALE = 80,
seed ++ "-biome", 1)`. -/
def vBiomeNoise (cx cz : ℤ) (size : ℕ) : ℕ → ℕ → ℚ :=
  generate2DNoise size size 80 (vSeedStr cx cz ++ "-biome") 1

/-- `VolumetricTerrain.applyBiomeHeightVariation`: mountains above biome 0.65
(`+ (b-0.65)/0.35 * 30`), plains above 0.4 (`+ (b-0.4)/0.25 * 5`), valleys
otherwise (`- (0.4-b)/0.4 * 15`). -/
def vAfterBiome (cx cz : ℤ) (size : ℕ) (x z : ℕ) : ℚ :=
  let b := vBiomeNoise cx cz size x z
  let h := vSurfacePre cx cz size x z
  if 13 / 20 < b then h + (b - 13 / 20) / (7 / 20) * 30
  else if 2 / 5 < b then h + (b - 2 / 5) / (1 / 4) * 5
  else h - (2 / 5 - b) / (2 / 5) * 15

/-- One accumulation step of the 3×3 smoothing kernel of
`VolumetricTerrain.smoothHeightMap`: the pair carries `(sum, weight)`;
out-of-bounds neighbours are skipped; `kernelWeight = 1/(1+|di|+|dj|)`. -/
def smoothAccStep (f : ℕ → ℕ → ℚ) (size : ℕ) (i j : ℕ) (acc : ℚ × ℚ) (dd : ℤ × ℤ) :
    ℚ × ℚ :=
  let ni : ℤ := (i : ℤ) + dd.1
  let nj : ℤ := (j : ℤ) + dd.2
  if 0 ≤ ni ∧ ni < (size : ℤ) ∧ 0 ≤ nj ∧ nj < (size : ℤ) then
    let w : ℚ := 1 / (1 + |(dd.1 : ℚ)| + |(dd.2 : ℚ)|)
    (acc.1 + f ni.toNat nj.toNat * w, acc.2 + w)
  else acc

/-- The `(di, dj)` iteration order of the smoothing kernel's nested loops. -/
def kernelOffsets : List (ℤ × ℤ) :=
  [(-1, -1), (-1, 0), (-1, 1), (0, -1), (0, 0), (0, 1), (1, -1), (1, 0), (1, 1)]

/-- `VolumetricTerrain.smoothHeightMap`: interior cells (`1 ≤ i,j < size-1`)
become the kernel-weighted average of the pre-smoothing map (read wholly from
the unmodified copy); boundary cells keep the pre-smoothing value. The
`weight > 0` guard of the source is kept. -/
def vSmoothed (cx cz : ℤ) (size : ℕ) (i j : ℕ) : ℚ :=
  if 1 ≤ i ∧ i < size - 1 ∧ 1 ≤ j ∧ j < size - 1 then
    let s := kernelOffsets.foldl (smoothAccStep (vAfterBiome cx cz size) size i j) (0, 0)
    if 0 < s.2 then s.1 / s.2 else vAfterBiome cx cz size i j
  else vAfterBiome cx cz size i j

/-- `generateSurfaceHeightMap`, final phase: floor every cell to an integer. -/
def vHeightMap (cx cz : ℤ) (size : ℕ) (x z : ℕ) : ℚ :=
  ((⌊vSmoothed cx cz size x z⌋ : ℤ) : ℚ)

/-! ## Volumetric block pipeline -/

/-- The block-type enumeration of `VolumetricTerrain.ts`. -/
inductive BlockType where
  | AIR | GRASS | STONE | WATER | SNOW | WOOD | LEAVES
  | DIRT | SAND | COAL | IRON | GOLD | DIAMOND | LAVA
deriving DecidableEq, Repr

/-- The numeric enum value of a block type (`AIR = -1`, `GRASS = 0`, …). -/
def BlockType.code : BlockType → ℤ
  | .AIR => -1 | .GRASS => 0 | .STONE => 1 | .WATER => 2 | .SNOW => 3
  | .WOOD => 4 | .LEAVES => 5 | .DIRT => 6 | .SAND => 7 | .COAL => 8
  | .IRON => 9 | .GOLD => 10 | .DIAMOND => 11 | .LAVA => 12

/-- The `SURFACE_DETAIL_SCALE = 24` 3D density noise (`seed ++ "-density"`,
2 octaves). -/
def vDensityNoise (cx cz : ℤ) (size : ℕ) : ℕ → ℕ → ℕ → ℚ :=
  generate3DNoise size size size 24 (vSeedStr cx cz ++ "-density") 2

/-- `VolumetricTerrain.generateVolumetricBlocks`, per cell (the loop writes
every in-range cell independently; `chunkY = 0` so `worldHeight = y`): below
the surface the depth and a density perturbation select surface material /
subsurface material / stone; above the surface, anything below world height
35 becomes water, all else air. -/
def vFillBlock (cx cz : ℤ) (size : ℕ) (x y z : ℕ) : BlockType :=
  let surfaceHeight := vHeightMap cx cz size x z
  let worldHeight : ℚ := (y : ℚ)
  if worldHeight ≤ surfaceHeight then
    let depth := surfaceHeight - worldHeight
    let densityValue := vDensityNoise cx cz size x y z
    let densityInfluence := (densityValue - 1 / 2) * 5
    if depth = 0 then
      if worldHeight < 35 then .SAND
      else if 65 < worldHeight then .SNOW
      else .GRASS
    else if depth < 4 + densityInfluence then
      if worldHeight < 35 then .SAND else .DIRT
    else .STONE
  else if worldHeight < 35 then .WATER
  else .AIR

/-- The block array after `generateVolumetricBlocks`: every in-range cell is
assigned (`null` only outside the generated range). -/
def vFilledData (cx cz : ℤ) (size : ℕ) : ℕ → ℕ → ℕ → Option BlockType :=
  fun x y z =>
    if x < size ∧ y < size ∧ z < size then some (vFillBlock cx cz size x y z) else none

/-- Point update of a block array (JS `this.blockData[x][y][z] = v`). -/
def updateCell (data : ℕ → ℕ → ℕ → Option BlockType) (x y z : ℕ) (v : Option BlockType) :
    ℕ → ℕ → ℕ → Option BlockType :=
  fun a b c => if a = x ∧ b = y ∧ c = z then v else data a b c

/-- The `CAVE_SCALE = 18` primary cave noise (`seed ++ "-caves"`, 2 octaves). -/
def vCaveNoise (cx cz : ℤ) (size : ℕ) : ℕ → ℕ → ℕ → ℚ :=
  generate3DNoise size size size 18 (vSeedStr cx cz ++ "-caves") 2

/-- The `CAVE_SCALE/2 = 9` cave detail noise (`seed ++ "-cave-detail"`,
1 octave). -/
def vCaveDetailNoise (cx cz : ℤ) (size : ℕ) : ℕ → ℕ → ℕ → ℚ :=
  generate3DNoise size size size 9 (vSeedStr cx cz ++ "-cave-detail") 1

/-- `combinedNoise = caveNoise * 0.7 + detailNoise * 0.3`. -/
def vCaveCombined (cx cz : ℤ) (size : ℕ) (x y z : ℕ) : ℚ :=
  vCaveNoise cx cz size x y z * (7 / 10) + vCaveDetailNoise cx cz size x y z * (3 / 10)

/-- The depth-dependent carve threshold: `CAVE_THRESHOLD = 0.42` minus
`min(1, (surfaceHeight - worldHeight)/30) * 0.15`. -/
def vCaveThreshold (cx cz : ℤ) (size : ℕ) (x y z : ℕ) : ℚ :=
  let depthFactor : ℚ := min 1 ((vHeightMap cx cz size x z - (y : ℚ)) / 30)
  21 / 50 - depthFactor * (3 / 20)

/-- One cell of `VolumetricTerrain.generateCaves` (`worldHeight = y` since
`chunkY = 0`). The state is the block array plus the `Math.random()` counter.
Skips: above `surfaceHeight - 5`; inside the water band `25 < y < 37`. A cell
whose combined noise exceeds the threshold and that is not already air is set
to air; if additionally `y < 12`, `y > 0` and the cell below is (now) air,
one ambient draw decides (`< 0.3`) whether it becomes lava instead. -/
def caveCellStep (cx cz : ℤ) (size : ℕ) (rand : ℕ → ℚ)
    (st : (ℕ → ℕ → ℕ → Option BlockType) × ℕ) (c : ℕ × ℕ × ℕ) :
    (ℕ → ℕ → ℕ → Option BlockType) × ℕ :=
  let x := c.1
  let y := c.2.1
  let z := c.2.2
  let worldHeight : ℚ := (y : ℚ)
  if vHeightMap cx cz size x z - 5 < worldHeight then st
  else if worldHeight < 37 ∧ 25 < worldHeight then st
  else if vCaveThreshold cx cz size x y z < vCaveCombined cx cz size x y z ∧
      st.1 x y z ≠ some .AIR then
    if worldHeight < 12 ∧ 0 < y ∧ st.1 x (y - 1) z = some .AIR then
      if rand st.2 < 3 / 10 then (updateCell st.1 x y z (some .LAVA), st.2 + 1)
      else (updateCell st.1 x y z (some .AIR), st.2 + 1)
    else (updateCell st.1 x y z (some .AIR), st.2)
  else st

/-- `VolumetricTerrain.generateCaves`: generated only when
`(chunkX + chunkZ) % (size * 2) == 0` (the source's early return; a JS
remainder is zero exactly when the Lean `%` is), then a scan over all cells
in `x`/`y`/`z` order threading the block array and the ambient counter. -/
def vGenerateCaves (cx cz : ℤ) (size : ℕ) (rand : ℕ → ℚ)
    (st : (ℕ → ℕ → ℕ → Option BlockType) × ℕ) :
    (ℕ → ℕ → ℕ → Option BlockType) × ℕ :=
  if (cx + cz) % ((size : ℤ) * 2) ≠ 0 then st
  else (cellsList3 size size size).foldl (caveCellStep cx cz size rand) st

/-- One cell of `VolumetricTerrain.generateOreDeposits`. Only stone cells are
touched; the first ambient draw gates the cell (`> oreChance = 0.05` skips);
then, below depth 5 nothing happens, otherwise a second draw selects the ore
by the source's depth-gated bands. -/
def oreCellStep (cx cz : ℤ) (size : ℕ) (rand : ℕ → ℚ)
    (st : (ℕ → ℕ → ℕ → Option BlockType) × ℕ) (c : ℕ × ℕ × ℕ) :
    (ℕ → ℕ → ℕ → Option BlockType) × ℕ :=
  let x := c.1
  let y := c.2.1
  let z := c.2.2
  if st.1 x y z ≠ some .STONE then st
  else if 1 / 20 < rand st.2 then (st.1, st.2 + 1)
  else
    let depth := vHeightMap cx cz size x z - (y : ℚ)
    if depth < 5 then (st.1, st.2 + 1)
    else
      let r := rand (st.2 + 1)
      if r < 1 / 2 then (updateCell st.1 x y z (some .COAL), st.2 + 2)
      else if r < 4 / 5 ∧ 10 < depth then (updateCell st.1 x y z (some .IRON), st.2 + 2)
      else if r < 19 / 20 ∧ 25 < depth then (updateCell st.1 x y z (some .GOLD), st.2 + 2)
      else if 40 < depth then (updateCell st.1 x y z (some .DIAMOND), st.2 + 2)
      else (st.1, st.2 + 2)

/-- `VolumetricTerrain.generateOreDeposits`: a scan over all cells in
`x`/`y`/`z` order. -/
def vGenerateOreDeposits (cx cz : ℤ) (size : ℕ) (rand : ℕ → ℚ)
    (st : (ℕ → ℕ → ℕ → Option BlockType) × ℕ) :
    (ℕ → ℕ → ℕ → Option BlockType) × ℕ :=
  (cellsList3 size size size).foldl (oreCellStep cx cz size rand) st

/-- The block array produced by `generateTerrain` for one fresh instance:
volume fill, then caves, then ore, the latter two consuming the ambient
`Math.random()` stream `rand` in source order. -/
def vBlockData (cx cz : ℤ) (size : ℕ) (rand : ℕ → ℚ) : ℕ → ℕ → ℕ → Option BlockType :=
  (vGenerateOreDeposits cx cz size rand
    (vGenerateCaves cx cz size rand (vFilledData cx cz size, 0))).1

/-- The state of one `VolumetricTerrain` instance (`chunkY` is always 0 and
is omitted). -/
structure VolumetricTerrain where
  chunkX : ℤ
  chunkZ : ℤ
  size : ℕ
  heightMap : ℕ → ℕ → ℚ
  blockData : ℕ → ℕ → ℕ → Option BlockType

/-- The `VolumetricTerrain` constructor: generate the surface height map,
then the block volume (fill / caves / ore). `rand` is the ambient
`Math.random()` stream this fresh instance reads. -/
def VolumetricTerrain.generate (cx cz : ℤ) (size : ℕ) (rand : ℕ → ℚ) : VolumetricTerrain :=
  { chunkX := cx, chunkZ := cz, size := size
    heightMap := vHeightMap cx cz size
    blockData := vBlockData cx cz size rand }

/-! ## Visibility extraction and queries -/

/-- One renderable instance exported by `extractBlocks`
(`{x, y, z, type}` in world coordinates). -/
structure Block where
  x : ℚ
  y : ℚ
  z : ℚ
  type : BlockType
deriving DecidableEq, Repr

/-- The six axis-aligned neighbour offsets in the source's order. -/
def sixDirs : List (ℤ × ℤ × ℤ) :=
  [(1, 0, 0), (-1, 0, 0), (0, 1, 0), (0, -1, 0), (0, 0, 1), (0, 0, -1)]

/-- Whether the neighbour at `(nx, ny, nz)` hides the face pointing at it:
out-of-bounds, air, `null`, water and lava all leave the face visible. -/
def neighborCovers (data : ℕ → ℕ → ℕ → Option BlockType) (size : ℕ)
    (nx ny nz : ℤ) : Bool :=
  if nx < 0 ∨ (size : ℤ) ≤ nx ∨ ny < 0 ∨ (size : ℤ) ≤ ny ∨ nz < 0 ∨ (size : ℤ) ≤ nz then
    false
  else
    match data nx.toNat ny.toNat nz.toNat with
    | none => false
    | some .AIR => false
    | some .WATER => false
    | some .LAVA => false
    | some _ => true

/-- `VolumetricTerrain.isBlockHidden`: water and lava are never culled; any
other block is hidden exactly when all six neighbours cover it. -/
def isBlockHidden (data : ℕ → ℕ → ℕ → Option BlockType) (size : ℕ) (x y z : ℕ) : Bool :=
  let cur := data x y z
  if cur = some .WATER ∨ cur = some .LAVA then false
  else
    sixDirs.all fun d =>
      neighborCovers data size ((x : ℤ) + d.1) ((y : ℤ) + d.2.1) ((z : ℤ) + d.2.2)

/-- `VolumetricTerrain.extractBlocks`: scan all cells in `x`/`y`/`z` order,
skip `null` and air cells and hidden cells, and emit the rest at world
coordinates (`worldX = chunkX - size/2`, `worldY = chunkY = 0`,
`worldZ = chunkZ - size/2`). -/
def extractBlocks (cx cz : ℤ) (size : ℕ)
    (data : ℕ → ℕ → ℕ → Option BlockType) : List Block :=
  (cellsList3 size size size).filterMap fun c =>
    match data c.1 c.2.1 c.2.2 with
    | none => none
    | some t =>
      if t = .AIR then none
      else if isBlockHidden data size c.1 c.2.1 c.2.2 then none
      else some ⟨((cx : ℚ) - (size : ℚ) / 2) + (c.1 : ℚ), (c.2.1 : ℚ),
        ((cz : ℚ) - (size : ℚ) / 2) + (c.2.2 : ℚ), t⟩

/-- `VolumetricTerrain.getHeightAt`: floor-derived local coordinates; in
bounds returns `heightMap[localX][localZ]`, else the sentinel `-1`. -/
def VolumetricTerrain.getHeightAt (t : VolumetricTerrain) (wx wz : ℚ) : ℚ :=
  let localX : ℤ := ⌊wx - ((t.chunkX : ℚ) - (t.size : ℚ) / 2)⌋
  let localZ : ℤ := ⌊wz - ((t.chunkZ : ℚ) - (t.size : ℚ) / 2)⌋
  if 0 ≤ localX ∧ localX < (t.size : ℤ) ∧ 0 ≤ localZ ∧ localZ < (t.size : ℤ) then
    t.heightMap localX.toNat localZ.toNat
  else -1

/-- `VolumetricTerrain.getBlockAt`: floor-derived local coordinates
(`localY = floor(worldY - chunkY)` with `chunkY = 0`); in bounds returns the
stored cell, else `null`. -/
def VolumetricTerrain.getBlockAt (t : VolumetricTerrain) (wx wy wz : ℚ) :
    Option BlockType :=
  let localX : ℤ := ⌊wx - ((t.chunkX : ℚ) - (t.size : ℚ) / 2)⌋
  let localY : ℤ := ⌊wy - 0⌋
  let localZ : ℤ := ⌊wz - ((t.chunkZ : ℚ) - (t.size : ℚ) / 2)⌋
  if 0 ≤ localX ∧ localX < (t.size : ℤ) ∧ 0 ≤ localY ∧ localY < (t.size : ℤ) ∧
      0 ≤ localZ ∧ localZ < (t.size : ℤ) then
    t.blockData localX.toNat localY.toNat localZ.toNat
  else none

/-- `VolumetricTerrain.setBlockAt`: in bounds, overwrite the one addressed
cell and report success; out of bounds, leave the state untouched and report
failure. -/
def VolumetricTerrain.setBlockAt (t : VolumetricTerrain) (wx wy wz : ℚ) (b : BlockType) :
    VolumetricTerrain × Bool :=
  let localX : ℤ := ⌊wx - ((t.chunkX : ℚ) - (t.size : ℚ) / 2)⌋
  let localY : ℤ := ⌊wy - 0⌋
  let localZ : ℤ := ⌊wz - ((t.chunkZ : ℚ) - (t.size : ℚ) / 2)⌋
  if 0 ≤ localX ∧ localX < (t.size : ℤ) ∧ 0 ≤ localY ∧ localY < (t.size : ℤ) ∧
      0 ≤ localZ ∧ localZ < (t.size : ℤ) then
    ({ t with
        blockData := updateCell t.blockData localX.toNat localY.toNat localZ.toNat (some b) },
      true)
  else (t, false)

/-! ## `VolumetricChunk` -/

/-- A `VolumetricChunk`: its terrain instance plus the flattened instance
list the renderer consumes (the `Float32Array`s are filled 1:1 from this
list, so the list is the model of the instance buffer). -/
structure VolumetricChunk where
  terrain : VolumetricTerrain
  cubesList : List Block

/-- `VolumetricChunk.generateCubes`: extract the visible blocks of the
current terrain state. -/
def VolumetricChunk.cubesFrom (t : VolumetricTerrain) : List Block :=
  extractBlocks t.chunkX t.chunkZ t.size t.blockData

/-- The `VolumetricChunk` constructor for a fresh instance over ambient
stream `rand`. -/
def VolumetricChunk.generate (cx cz : ℤ) (size : ℕ) (rand : ℕ → ℚ) : VolumetricChunk :=
  let t := VolumetricTerrain.generate cx cz size rand
  { terrain := t, cubesList := VolumetricChunk.cubesFrom t }

/-- `VolumetricChunk.getHeightAt` delegates to the terrain. -/
def VolumetricChunk.getHeightAt (c : VolumetricChunk) (wx wz : ℚ) : ℚ :=
  c.terrain.getHeightAt wx wz

/-- `VolumetricChunk.setBlockAt`: delegate to the terrain; on success
regenerate the instance list from the updated terrain. -/
def VolumetricChunk.setBlockAt (c : VolumetricChunk) (wx wy wz : ℚ) (b : BlockType) :
    VolumetricChunk × Bool :=
  let r := c.terrain.setBlockAt wx wy wz b
  if r.2 then ({ terrain := r.1, cubesList := VolumetricChunk.cubesFrom r.1 }, true)
  else (c, false)

/-! ## Chunk streaming (`MinecraftAnimation.generateInitialChunks` /
`updateChunks`)

The `Map<string, Chunk>` keys are the strings `"${chunkX},${chunkZ}"`;
the encoding of an integer pair into that string is injective, so keys are
modelled as the pairs themselves, and since the mapped `Chunk` value is a
pure function of its key (and the fixed chunk size), the loaded-set model
carries just the key set. -/

/-- The chunk key owning a world column:
`(floor(x/chunkSize)*chunkSize, floor(z/chunkSize)*chunkSize)`. -/
def chunkKeyOf (chunkSize : ℕ) (x z : ℚ) : ℤ × ℤ :=
  (⌊x / (chunkSize : ℚ)⌋ * chunkSize, ⌊z / (chunkSize : ℚ)⌋ * chunkSize)

/-- The streaming manager's mutable state: the loaded key set plus the
`currentChunk` key. -/
structure StreamState where
  loaded : Finset (ℤ × ℤ)
  currentChunk : ℤ × ℤ

/-- The 3×3 key neighbourhood around a centre key (`x`/`z` offsets in
`{-1,0,1}` times the chunk size). -/
def chunkNeighborhood (chunkSize : ℕ) (c : ℤ × ℤ) : Finset (ℤ × ℤ) :=
  (Finset.range 3 ×ˢ Finset.range 3).image fun d =>
    (c.1 + ((d.1 : ℤ) - 1) * chunkSize, c.2 + ((d.2 : ℤ) - 1) * chunkSize)

/-- `generateInitialChunks` starting from the constructor's (or `reset`'s)
empty map: set `currentChunk` to the player's key and create its 3×3 grid. -/
def generateInitialChunks (chunkSize : ℕ) (pos : ℚ × ℚ) : StreamState :=
  let c := chunkKeyOf chunkSize pos.1 pos.2
  { loaded := chunkNeighborhood chunkSize c, currentChunk := c }

/-- `updateChunks`: no-op while the player's key is unchanged; otherwise add
the missing keys of the new 3×3 grid (`chunksToKeep`) and then delete every
loaded key outside it. -/
def updateChunks (chunkSize : ℕ) (pos : ℚ × ℚ) (s : StreamState) : StreamState :=
  let c := chunkKeyOf chunkSize pos.1 pos.2
  if c = s.currentChunk then s
  else
    let keep := chunkNeighborhood chunkSize c
    { loaded := (s.loaded ∪ keep).filter (· ∈ keep), currentChunk := c }

/-! ## Player physics (`MinecraftAnimation`)

The collision sampler evaluates `Math.cos`/`Math.sin` at the fixed angles
`2π·i/n` and `Math.sqrt` inside a (distance-comparison) fallback; these
transcendental evaluations are abstracted into a `MathEnv`, and every physics
theorem below is proved for *all* environments, hence in particular for the
IEEE approximations the source uses. -/

/-- Abstract trigonometry/square-root oracle: `cos2pi f` stands for the JS
value of `Math.cos(2π·f)`, `sin2pi` likewise, `sqrtQ` for `Math.sqrt`. -/
structure MathEnv where
  cos2pi : ℚ → ℚ
  sin2pi : ℚ → ℚ
  sqrtQ : ℚ → ℚ

/-- A loaded chunk as physics sees it: centre, size and height grid
(the height-field `Chunk`'s query geometry). -/
structure PhysChunk where
  cx : ℤ
  cz : ℤ
  csize : ℕ
  heights : ℕ → ℕ → ℚ

/-- `Chunk.getHeightAt` of a loaded chunk. -/
def PhysChunk.heightAt (c : PhysChunk) (wx wz : ℚ) : ℚ :=
  chunkGetHeightAt c.cx c.cz c.csize c.heights wx wz

/-- The key → chunk map (`this.chunks`). -/
def ChunkMap : Type := ℤ × ℤ → Option PhysChunk

/-- The player state owned by the controller (position is the head of the
radius-0.4, height-2 cylinder). -/
structure PState where
  px : ℚ
  py : ℚ
  pz : ℚ
  vx : ℚ
  vy : ℚ
  vz : ℚ
  onGround : Bool

/-- `MinecraftAnimation.jump`: grounded ⟹ upward impulse `jumpVelocity = 10`,
clear the flag, nudge the head up by `0.15`; airborne ⟹ no effect. -/
def jump (s : PState) : PState :=
  if s.onGround then { s with vy := 10, onGround := false, py := s.py + 3 / 20 }
  else s

/-- The 8 interior grid offsets (`rx, rz ∈ {-1,0,1}`, centre skipped) used
by the thorough/robust bottom sampling. -/
def gridOffsets : List (ℚ × ℚ) :=
  [(-1, -1), (-1, 0), (-1, 1), (0, -1), (0, 1), (1, -1), (1, 0), (1, 1)]

/-- The sample constellation of `checkCollision`: centre bottom, 12 bottom
perimeter points, and 8-point rings at the middle (`y-1`) and top (`y-0.2`)
body heights; radius 0.4. -/
def collisionPoints (env : MathEnv) (p : ℚ × ℚ × ℚ) : List (ℚ × ℚ × ℚ) :=
  let r : ℚ := 2 / 5
  let bottomY := p.2.1 - 2
  [(p.1, bottomY, p.2.2)] ++
  ((List.range 12).map fun i =>
    (p.1 + env.cos2pi ((i : ℚ) / 12) * r, bottomY, p.2.2 + env.sin2pi ((i : ℚ) / 12) * r)) ++
  ([p.2.1 - 1, p.2.1 - 1 / 5].flatMap fun hh =>
    (List.range 8).map fun i =>
      (p.1 + env.cos2pi ((i : ℚ) / 8) * r, hh, p.2.2 + env.sin2pi ((i : ℚ) / 8) * r))

/-- The per-point terrain test of `checkCollision` (no missing-chunk
fallback): the owning chunk must exist, report a non-negative height, and the
point must be at or below it. -/
def pointCollides (chunkSize : ℕ) (world : ChunkMap) (pt : ℚ × ℚ × ℚ) : Bool :=
  match world (chunkKeyOf chunkSize pt.1 pt.2.2) with
  | some chunk =>
    let th := chunk.heightAt pt.1 pt.2.2
    decide (0 ≤ th ∧ pt.2.1 ≤ th)
  | none => false

/-- `MinecraftAnimation.checkCollision`. -/
def checkCollision (env : MathEnv) (chunkSize : ℕ) (world : ChunkMap)
    (p : ℚ × ℚ × ℚ) : Bool :=
  (collisionPoints env p).any (pointCollides chunkSize world)

/-- The 4 orthogonal neighbour keys consulted by the missing-chunk
fallbacks. -/
def neighborKeys (chunkSize : ℕ) (key : ℤ × ℤ) : List (ℤ × ℤ) :=
  [(key.1 - chunkSize, key.2), (key.1 + chunkSize, key.2),
   (key.1, key.2 - chunkSize), (key.1, key.2 + chunkSize)]

/-- The clamped boundary probe into a neighbour chunk
(`max(min(x, centerX + size/2 - 1), centerX - size/2 + 1)` on both axes). -/
def clampedNeighborHeight (chunkSize : ℕ) (c : PhysChunk) (x z : ℚ) : ℚ :=
  c.heightAt
    (max (min x ((c.cx : ℚ) + (chunkSize : ℚ) / 2 - 1)) ((c.cx : ℚ) - (chunkSize : ℚ) / 2 + 1))
    (max (min z ((c.cz : ℚ) + (chunkSize : ℚ) / 2 - 1)) ((c.cz : ℚ) - (chunkSize : ℚ) / 2 + 1))

/-- The sample constellation of `checkThoroughCollision`: centre bottom,
16 bottom perimeter points, 8 interior bottom grid points, and 8-point rings
at `bottomY + 0.5/1.0/1.5`. -/
def thoroughPoints (env : MathEnv) (p : ℚ × ℚ × ℚ) : List (ℚ × ℚ × ℚ) :=
  let r : ℚ := 2 / 5
  let bottomY := p.2.1 - 2
  [(p.1, bottomY, p.2.2)] ++
  ((List.range 16).map fun i =>
    (p.1 + env.cos2pi ((i : ℚ) / 16) * r, bottomY, p.2.2 + env.sin2pi ((i : ℚ) / 16) * r)) ++
  (gridOffsets.map fun rr =>
    (p.1 + rr.1 * r * (1 / 2), bottomY, p.2.2 + rr.2 * r * (1 / 2))) ++
  ([bottomY + 1 / 2, bottomY + 1, bottomY + 3 / 2].flatMap fun hh =>
    (List.range 8).map fun i =>
      (p.1 + env.cos2pi ((i : ℚ) / 8) * r, hh, p.2.2 + env.sin2pi ((i : ℚ) / 8) * r))

/-- The per-point test of `checkThoroughCollision`: with the owning chunk
present, the standard test; with it missing, the maximum clamped height over
the 4 loaded orthogonal neighbours (starting from `-1`) approximates the
terrain. -/
def thoroughPointCollides (chunkSize : ℕ) (world : ChunkMap) (pt : ℚ × ℚ × ℚ) : Bool :=
  let key := chunkKeyOf chunkSize pt.1 pt.2.2
  match world key with
  | some chunk =>
    let th := chunk.heightAt pt.1 pt.2.2
    decide (0 ≤ th ∧ pt.2.1 ≤ th)
  | none =>
    let nearby := (neighborKeys chunkSize key).foldl (fun acc nk =>
      match world nk with
      | some nc =>
        let nh := clampedNeighborHeight chunkSize nc pt.1 pt.2.2
        if acc < nh then nh else acc
      | none => acc) (-1)
    decide (0 ≤ nearby ∧ pt.2.1 ≤ nearby)

/-- `MinecraftAnimation.checkThoroughCollision`. -/
def checkThoroughCollision (env : MathEnv) (chunkSize : ℕ) (world : ChunkMap)
    (p : ℚ × ℚ × ℚ) : Bool :=
  (thoroughPoints env p).any (thoroughPointCollides chunkSize world)

/-- The sample constellation of `checkSimpleCollision`: centre bottom plus,
for each of 8 perimeter angles, a bottom point and a middle (`y-1`) point. -/
def simplePoints (env : MathEnv) (p : ℚ × ℚ × ℚ) : List (ℚ × ℚ × ℚ) :=
  let r : ℚ := 2 / 5
  [(p.1, p.2.1 - 2, p.2.2)] ++
  ((List.range 8).flatMap fun i =>
    [(p.1 + env.cos2pi ((i : ℚ) / 8) * r, p.2.1 - 2, p.2.2 + env.sin2pi ((i : ℚ) / 8) * r),
     (p.1 + env.cos2pi ((i : ℚ) / 8) * r, p.2.1 - 1, p.2.2 + env.sin2pi ((i : ℚ) / 8) * r)])

/-- `MinecraftAnimation.checkSimpleCollision`. -/
def checkSimpleCollision (env : MathEnv) (chunkSize : ℕ) (world : ChunkMap)
    (p : ℚ × ℚ × ℚ) : Bool :=
  (simplePoints env p).any (pointCollides chunkSize world)

/-- The running-maximum update of the height sampling folds (`-Infinity`
initialisation is `none`): replace the accumulator when the new value is
strictly larger. -/
def optMaxUpd (acc : Option ℚ) (v : ℚ) : Option ℚ :=
  match acc with
  | none => some v
  | some m => if m < v then some v else acc

/-- `MinecraftAnimation.getTerrainHeightBelow`: maximum chunk height over the
centre and a 12-point perimeter ring below the player (missing chunks
skipped; out-of-bounds `-1` sentinels participate in the maximum as in the
source); `none` is the untouched `-Infinity`. -/
def getTerrainHeightBelow (env : MathEnv) (chunkSize : ℕ) (world : ChunkMap)
    (px pz : ℚ) : Option ℚ :=
  let r : ℚ := 2 / 5
  let pts := [(px, pz)] ++ (List.range 12).map fun i =>
    (px + env.cos2pi ((i : ℚ) / 12) * r, pz + env.sin2pi ((i : ℚ) / 12) * r)
  pts.foldl (fun acc pt =>
    match world (chunkKeyOf chunkSize pt.1 pt.2) with
    | some chunk => optMaxUpd acc (chunk.heightAt pt.1 pt.2)
    | none => acc) none

/-- The sample columns of `getRobustTerrainHeightBelow`: centre, 8 interior
grid points, 16 perimeter points. -/
def robustPoints (env : MathEnv) (px pz : ℚ) : List (ℚ × ℚ) :=
  let r : ℚ := 2 / 5
  [(px, pz)] ++
  (gridOffsets.map fun rr => (px + rr.1 * r * (1 / 2), pz + rr.2 * r * (1 / 2))) ++
  ((List.range 16).map fun i =>
    (px + env.cos2pi ((i : ℚ) / 16) * r, pz + env.sin2pi ((i : ℚ) / 16) * r))

/-- `MinecraftAnimation.getRobustTerrainHeightBelow`: like
`getTerrainHeightBelow` but over the richer constellation, and falling back
to the clamped heights of the 4 orthogonal neighbours when the owning chunk
is missing. -/
def getRobustTerrainHeightBelow (env : MathEnv) (chunkSize : ℕ) (world : ChunkMap)
    (px pz : ℚ) : Option ℚ :=
  (robustPoints env px pz).foldl (fun acc pt =>
    match world (chunkKeyOf chunkSize pt.1 pt.2) with
    | some chunk => optMaxUpd acc (chunk.heightAt pt.1 pt.2)
    | none =>
      (neighborKeys chunkSize (chunkKeyOf chunkSize pt.1 pt.2)).foldl (fun a nk =>
        match world nk with
        | some nc => optMaxUpd a (clampedNeighborHeight chunkSize nc pt.1 pt.2)
        | none => a) acc) none

/-- The 8 neighbour keys (orthogonal then diagonal) consulted by
`getTerrainHeightAtPosition`. -/
def allNeighborKeys (chunkSize : ℕ) (k : ℤ × ℤ) : List (ℤ × ℤ) :=
  [(k.1 - chunkSize, k.2), (k.1 + chunkSize, k.2),
   (k.1, k.2 - chunkSize), (k.1, k.2 + chunkSize),
   (k.1 - chunkSize, k.2 - chunkSize), (k.1 + chunkSize, k.2 - chunkSize),
   (k.1 - chunkSize, k.2 + chunkSize), (k.1 + chunkSize, k.2 + chunkSize)]

/-- `MinecraftAnimation.getTerrainHeightAtPosition`: direct in-bounds lookup
when the owning chunk yields `height ≥ 0`; otherwise the height of the
closest clamped probe among the 8 neighbours (note this clamp's lower bound
has no `+1`, unlike the thorough/robust clamp); `none` is `-Infinity`. The
`bestDistance` comparison uses the abstract `sqrtQ`. -/
def getTerrainHeightAtPosition (env : MathEnv) (chunkSize : ℕ) (world : ChunkMap)
    (x z : ℚ) : Option ℚ :=
  let key := chunkKeyOf chunkSize x z
  let direct : Option ℚ :=
    match world key with
    | some c =>
      let h := c.heightAt x z
      if 0 ≤ h then some h else none
    | none => none
  match direct with
  | some h => some h
  | none =>
    let st := (allNeighborKeys chunkSize key).foldl
      (fun (acc : Option ℚ × Option ℚ) nk =>
        match world nk with
        | some nc =>
          let cX := max (min x ((nc.cx : ℚ) + (chunkSize : ℚ) / 2 - 1))
            ((nc.cx : ℚ) - (chunkSize : ℚ) / 2)
          let cZ := max (min z ((nc.cz : ℚ) + (chunkSize : ℚ) / 2 - 1))
            ((nc.cz : ℚ) - (chunkSize : ℚ) / 2)
          let dist := env.sqrtQ ((x - cX) ^ 2 + (z - cZ) ^ 2)
          let h := nc.heightAt cX cZ
          if 0 ≤ h ∧ (match acc.2 with | none => true | some bd => decide (dist < bd)) = true then
            (some h, some dist)
          else acc
        | none => acc) (none, none)
    st.1

/-- `heightDifference > 0.5 && heightDifference <= 1.0` on the possibly
`-Infinity` heights (`none`); a `-Infinity` on the left or a `NaN`
(`-∞ - -∞`) fails the first conjunct, a `+∞` difference fails the second. -/
def dropBetween (th target : Option ℚ) : Bool :=
  match th, target with
  | some t, some g => decide (1 / 2 < t - g ∧ t - g ≤ 1)
  | _, _ => false

/-- `terrainHeight - probeHeight > 0.5` on possibly `-Infinity` heights. -/
def dropExceedsHalf (th target : Option ℚ) : Bool :=
  match th, target with
  | some t, some g => decide (1 / 2 < t - g)
  | some _, none => true
  | none, _ => false

/-- The sub-stepped vertical walk of `applyPhysics` PART 1: test candidates
`y0 + stepSize*i` for `i = 1..steps`, stop at the first collision, return the
last non-colliding candidate and the collided flag. -/
def substepWalk (check : ℚ → Bool) (y0 stepSize : ℚ) (i : ℕ) (left : ℕ) (finalY : ℚ) :
    ℚ × Bool :=
  match left with
  | 0 => (finalY, false)
  | l + 1 =>
    let nextY := y0 + stepSize * (i : ℚ)
    if check nextY then (finalY, true)
    else substepWalk check y0 stepSize (i + 1) l nextY

/-- PART 1's airborne segment: dynamic step count
`max(10, ceil(|intended|/0.05))`, enhanced (thorough) collision below
`-10` vertical speed, landing on downward collision, then the robust
safety correction. -/
def verticalSubstep (env : MathEnv) (chunkSize : ℕ) (world : ChunkMap) (s : PState) :
    PState :=
  let intended := s.vy * (2 / 125)
  let steps : ℕ := max 10 (⌈|intended| / (1 / 20)⌉).toNat
  let useEnhanced := s.vy < -10
  let check : ℚ → Bool := fun nextY =>
    if useEnhanced then checkThoroughCollision env chunkSize world (s.px, nextY, s.pz)
    else checkCollision env chunkSize world (s.px, nextY, s.pz)
  let w := substepWalk check s.py (intended / (steps : ℚ)) 1 steps s.py
  let s' :=
    if w.2 then
      { s with py := w.1, vy := 0, onGround := if intended < 0 then true else s.onGround }
    else { s with py := w.1 }
  match getRobustTerrainHeightBelow env chunkSize world s'.px s'.pz with
  | some hb =>
    if s'.py - 2 < hb then { s' with py := hb + 2, vy := 0, onGround := true } else s'
  | none => s'

/-- The careful small-step edge walk of PART 2 (`safeSize = 0.05`, so
`numSteps = ceil(0.2/0.05)` probes at ratios `i/numSteps`); stops as soon as
the drop from `terrainHeight` exceeds 0.5; returns the furthest safe column
and the `stillOnGround` flag. -/
def edgeWalk (env : MathEnv) (chunkSize : ℕ) (world : ChunkMap) (th : Option ℚ)
    (sx0 sz0 dx dz : ℚ) (numSteps : ℕ) (i : ℕ) (left : ℕ) (safe : ℚ × ℚ) :
    (ℚ × ℚ) × Bool :=
  match left with
  | 0 => (safe, true)
  | l + 1 =>
    let ratio : ℚ := (i : ℚ) / (numSteps : ℚ)
    let testX := sx0 + dx * (1 / 5) * ratio
    let testZ := sz0 + dz * (1 / 5) * ratio
    if dropExceedsHalf th (getTerrainHeightAtPosition env chunkSize world testX testZ) then
      (safe, false)
    else edgeWalk env chunkSize world th sx0 sz0 dx dz numSteps (i + 1) l (testX, testZ)

/-- The edge-case branch of PART 2: advance in small increments to the
furthest safe point, then (still grounded) snap the head to the terrain
there; the source `return`s afterwards, skipping PART 3. -/
def carefulEdgeWalk (env : MathEnv) (chunkSize : ℕ) (world : ChunkMap)
    (walkDir : ℚ × ℚ × ℚ) (th : Option ℚ) (s : PState) : PState :=
  let numSteps : ℕ := (⌈(1 / 5 : ℚ) / (1 / 20)⌉).toNat
  let w := edgeWalk env chunkSize world th s.px s.pz walkDir.1 walkDir.2.2 numSteps 1
    numSteps (s.px, s.pz)
  let s' := { s with px := w.1.1, pz := w.1.2 }
  if w.2 then
    match getTerrainHeightAtPosition env chunkSize world w.1.1 w.1.2 with
    | some fh => { s' with py := fh + 2 }
    | none => s'
  else s'

/-- The non-edge movement of PART 2: grounded walking uses per-axis simple
collision with a step-up retry at `y + MAX_STEP_HEIGHT` when both axes are
blocked; airborne movement tries the combined move with the full test, then
each axis separately (the `z` test reading the just-updated `x` as in the
source). -/
def normalMove (env : MathEnv) (chunkSize : ℕ) (world : ChunkMap)
    (walkDir : ℚ × ℚ × ℚ) (s : PState) : PState :=
  let targetX := s.px + walkDir.1 * (1 / 5)
  let targetZ := s.pz + walkDir.2.2 * (1 / 5)
  if s.onGround then
    let canMoveX := ¬ checkSimpleCollision env chunkSize world (targetX, s.py, s.pz)
    let canMoveZ := ¬ checkSimpleCollision env chunkSize world (s.px, s.py, targetZ)
    if ¬canMoveX ∧ ¬canMoveZ then
      if ¬ checkSimpleCollision env chunkSize world (targetX, s.py + 1 / 2, targetZ) then
        { s with px := targetX, pz := targetZ, py := s.py + 1 / 2 }
      else s
    else
      { s with px := if canMoveX then targetX else s.px,
               pz := if canMoveZ then targetZ else s.pz }
  else
    if ¬ checkCollision env chunkSize world (targetX, s.py, targetZ) then
      { s with px := targetX, pz := targetZ }
    else
      let s1 := if ¬ checkCollision env chunkSize world (targetX, s.py, s.pz) then
        { s with px := targetX } else s
      if ¬ checkCollision env chunkSize world (s1.px, s1.py, targetZ) then
        { s1 with pz := targetZ } else s1

/-- PART 2 in full: skipped on zero walk input
(`walkDirection.length() > 0` fails exactly on the zero vector); when
grounded and the drop pattern at the target column then at a tiny probe step
signals an edge, the careful walk runs and the tick `return`s early (the
boolean); otherwise normal movement. -/
def horizontalMove (env : MathEnv) (chunkSize : ℕ) (world : ChunkMap)
    (walkDir : ℚ × ℚ × ℚ) (th : Option ℚ) (s : PState) : PState × Bool :=
  if walkDir.1 = 0 ∧ walkDir.2.1 = 0 ∧ walkDir.2.2 = 0 then (s, false)
  else
    let targetX := s.px + walkDir.1 * (1 / 5)
    let targetZ := s.pz + walkDir.2.2 * (1 / 5)
    if s.onGround ∧
        dropBetween th (getTerrainHeightAtPosition env chunkSize world targetX targetZ) ∧
        dropExceedsHalf th (getTerrainHeightAtPosition env chunkSize world
          (s.px + walkDir.1 * (1 / 10)) (s.pz + walkDir.2.2 * (1 / 10))) then
      (carefulEdgeWalk env chunkSize world walkDir th s, true)
    else (normalMove env chunkSize world walkDir s, false)

/-- PART 3: a grounded player re-samples the terrain below; a drop of more
than 1 unit starts a fall, otherwise the head snaps to the terrain. -/
def finalGroundAdjust (env : MathEnv) (chunkSize : ℕ) (world : ChunkMap) (s : PState) :
    PState :=
  if s.onGround then
    match getTerrainHeightBelow env chunkSize world s.px s.pz with
    | some nth =>
      if 1 < s.py - 2 - nth then { s with onGround := false }
      else { s with py := nth + 2 }
    | none => s
  else s

/-- `MinecraftAnimation.applyPhysics` (`playerHeight = 2`,
`deltaTime = 0.016 = 2/125`, `gravity = 9.8 = 49/5`): velocity clamp to
`±20`; emergency correction when already `0.1` below the terrain (early
return); ground snap within `COLLISION_EPSILON = 0.05` else gravity; the
airborne sub-stepped vertical move; horizontal movement; final ground
reconciliation. A `none` terrain height is the source's `-Infinity`, whose
comparisons in the emergency and snap guards are false. -/
def applyPhysics (env : MathEnv) (chunkSize : ℕ) (world : ChunkMap)
    (walkDir : ℚ × ℚ × ℚ) (terrainHeight : Option ℚ) (s0 : PState) : PState :=
  let s1 : PState := { s0 with vy := max (min s0.vy 20) (-20) }
  match terrainHeight with
  | some th =>
    if s1.py - 2 < th - 1 / 10 then
      { s1 with py := th + 2 + 1 / 5, vy := 0, onGround := true }
    else
      let s2 := if s1.py - 2 - th ≤ 1 / 20 then
          { s1 with onGround := true, py := th + 2, vy := 0 }
        else { s1 with onGround := false, vy := s1.vy - (49 / 5) * (2 / 125) }
      let s3 := if ¬s2.onGround ∨ 0 < s2.vy then verticalSubstep env chunkSize world s2
        else s2
      let hm := horizontalMove env chunkSize world walkDir (some th) s3
      if hm.2 then hm.1 else finalGroundAdjust env chunkSize world hm.1
  | none =>
    let s2 := { s1 with onGround := false, vy := s1.vy - (49 / 5) * (2 / 125) }
    let s3 := if ¬s2.onGround ∨ 0 < s2.vy then verticalSubstep env chunkSize world s2
      else s2
    let hm := horizontalMove env chunkSize world walkDir none s3
    if hm.2 then hm.1 else finalGroundAdjust env chunkSize world hm.1

/-- One physics tick as `draw()` runs it: sample the terrain below the
player, then `applyPhysics` with `playerHeight = 2`. -/
def physicsTick (env : MathEnv) (chunkSize : ℕ) (world : ChunkMap)
    (walkDir : ℚ × ℚ × ℚ) (s : PState) : PState :=
  applyPhysics env chunkSize world walkDir
    (getTerrainHeightBelow env chunkSize world s.px s.pz) s

/-- An everywhere-loaded flat world of uniform height `H`: every key maps to
a chunk centred on it whose height grid is constantly `H` (the claim C9
scenario "flat loaded chunk"). -/
def flatWorld (chunkSize : ℕ) (H : ℚ) : ChunkMap :=
  fun key => some { cx := key.1, cz := key.2, csize := chunkSize, heights := fun _ _ => H }

/-- The landing invariant of the C9 scenario: the player column is fixed and
the state is either exactly grounded on the surface or strictly airborne and
not rising. -/
def flatInv (H x z : ℚ) (s : PState) : Prop :=
  s.px = x ∧ s.pz = z ∧
  ((s.onGround = true ∧ s.py = H + 2 ∧ s.vy = 0) ∨
   (s.onGround = false ∧ H + 2 < s.py ∧ s.vy ≤ 0))

/-! ## Theorems -/

/-- **C8**: invoking `jump` when the on-ground flag is true sets the vertical
velocity to exactly `jumpVelocity = 10`, sets on-ground to false, and
increases `position.y` by the positive nudge `0.15`; invoking `jump` when
on-ground is false leaves position, velocity and on-ground entirely
unchanged. -/
theorem C8_jump_spec (s : PState) :
    (s.onGround = true →
      jump s = { s with vy := 10, onGround := false, py := s.py + 3 / 20 }) ∧
    (s.onGround = false → jump s = s) := by
  refine ⟨fun h => ?_, fun h => ?_⟩ <;> simp [jump, h]

/-- Witness for C8: a grounded player at head height 50 jumps to velocity 10,
airborne, head at 50.15. -/
theorem C8_jump_spec_witness :
    jump ⟨0, 50, 0, 0, 0, 0, true⟩ = ⟨0, 50 + 3 / 20, 0, 0, 10, 0, false⟩ :=
  (C8_jump_spec ⟨0, 50, 0, 0, 0, 0, true⟩).1 rfl

/-- A floor is negative exactly on negative inputs (bound form used by the
out-of-bounds proofs). -/
theorem floor_neg_of_lt {q : ℚ} (h : q < 0) : ⌊q⌋ < 0 := by
  exact_mod_cast Int.floor_lt.mpr (by exact_mod_cast h)

/-- A floor reaches `n` as soon as the input does. -/
theorem le_floor_of_le {q : ℚ} {n : ℕ} (h : (n : ℚ) ≤ q) : (n : ℤ) ≤ ⌊q⌋ :=
  Int.le_floor.mpr (by exact_mod_cast h)

/-- **C3**: for every world coordinate outside a chunk's
`[origin, origin + size)` square on either axis (`origin = center - size/2`),
the height-field `getHeightAt` returns the sentinel `-1` — either axis alone
out of range suffices — and for every world coordinate outside the volumetric
chunk's cubic bounds (`y` measured from `chunkY = 0`), `getBlockAt` returns
`null`; both queries are total functions, so neither throws. -/
theorem C3_out_of_bounds_sentinels (cx cz : ℤ) (size : ℕ) (heights : ℕ → ℕ → ℚ)
    (wx wz : ℚ) (t : VolumetricTerrain) (bx bay bz : ℚ)
    (hout : wx < (cx : ℚ) - (size : ℚ) / 2 ∨ ((cx : ℚ) - (size : ℚ) / 2) + size ≤ wx ∨
      wz < (cz : ℚ) - (size : ℚ) / 2 ∨ ((cz : ℚ) - (size : ℚ) / 2) + size ≤ wz)
    (hbout : bx < (t.chunkX : ℚ) - (t.size : ℚ) / 2 ∨
      ((t.chunkX : ℚ) - (t.size : ℚ) / 2) + t.size ≤ bx ∨
      bay < 0 ∨ (t.size : ℚ) ≤ bay ∨
      bz < (t.chunkZ : ℚ) - (t.size : ℚ) / 2 ∨
      ((t.chunkZ : ℚ) - (t.size : ℚ) / 2) + t.size ≤ bz) :
    chunkGetHeightAt cx cz size heights wx wz = -1 ∧
    t.getBlockAt bx bay bz = none := by
  constructor
  · unfold chunkGetHeightAt
    rw [if_neg]
    intro ⟨h1, h2, h3, h4⟩
    rcases hout with h | h | h | h
    · exact absurd h1 (not_le.mpr (floor_neg_of_lt (by linarith)))
    · exact absurd h2 (not_lt.mpr (le_floor_of_le (by linarith)))
    · exact absurd h3 (not_le.mpr (floor_neg_of_lt (by linarith)))
    · exact absurd h4 (not_lt.mpr (le_floor_of_le (by linarith)))
  · unfold VolumetricTerrain.getBlockAt
    rw [if_neg]
    intro ⟨h1, h2, h3, h4, h5, h6⟩
    rcases hbout with h | h | h | h | h | h
    · exact absurd h1 (not_le.mpr (floor_neg_of_lt (by linarith)))
    · exact absurd h2 (not_lt.mpr (le_floor_of_le (by linarith)))
    · exact absurd h3 (not_le.mpr (floor_neg_of_lt (by linarith)))
    · exact absurd h4 (not_lt.mpr (le_floor_of_le (by linarith)))
    · exact absurd h5 (not_le.mpr (floor_neg_of_lt (by linarith)))
    · exact absurd h6 (not_lt.mpr (le_floor_of_le (by linarith)))

/-- Witness for C3: a 64-chunk centred at the origin queried at
`x = 200` (far outside), and a unit volumetric chunk queried at `y = -3`. -/
theorem C3_out_of_bounds_sentinels_witness :
    chunkGetHeightAt 0 0 64 (fun _ _ => 7) 200 0 = -1 ∧
    (VolumetricTerrain.generate 0 0 1 fun _ => 0).getBlockAt 0 (-3) 0 = none :=
  C3_out_of_bounds_sentinels 0 0 64 (fun _ _ => 7) 200 0
    (VolumetricTerrain.generate 0 0 1 fun _ => 0) 0 (-3) 0
    (by norm_num) (by norm_num)

/-- **C10**: a successful in-bounds `setBlockAt` on a volumetric chunk
mutates only the one addressed cell of the block grid and regenerates the
instance buffer, while the cached height map is left entirely unchanged —
`getHeightAt` returns the same value at every column after the edit as
before it. -/
theorem C10_setBlockAt_frame (c : VolumetricChunk) (wx wy wz : ℚ) (b : BlockType)
    (lx ly lz : ℤ)
    (hlx : lx = ⌊wx - ((c.terrain.chunkX : ℚ) - (c.terrain.size : ℚ) / 2)⌋)
    (hly : ly = ⌊wy - 0⌋)
    (hlz : lz = ⌊wz - ((c.terrain.chunkZ : ℚ) - (c.terrain.size : ℚ) / 2)⌋)
    (hin : 0 ≤ lx ∧ lx < (c.terrain.size : ℤ) ∧ 0 ≤ ly ∧ ly < (c.terrain.size : ℤ) ∧
      0 ≤ lz ∧ lz < (c.terrain.size : ℤ)) :
    ((c.setBlockAt wx wy wz b).2 = true) ∧
    ((c.setBlockAt wx wy wz b).1.terrain.heightMap = c.terrain.heightMap) ∧
    (∀ qx qz : ℚ, (c.setBlockAt wx wy wz b).1.getHeightAt qx qz = c.getHeightAt qx qz) ∧
    ((c.setBlockAt wx wy wz b).1.terrain.blockData lx.toNat ly.toNat lz.toNat = some b) ∧
    (∀ a e f : ℕ, ¬(a = lx.toNat ∧ e = ly.toNat ∧ f = lz.toNat) →
      (c.setBlockAt wx wy wz b).1.terrain.blockData a e f = c.terrain.blockData a e f) ∧
    ((c.setBlockAt wx wy wz b).1.cubesList =
      VolumetricChunk.cubesFrom (c.setBlockAt wx wy wz b).1.terrain) := by
  subst hlx hly hlz
  unfold VolumetricChunk.setBlockAt VolumetricTerrain.setBlockAt
  rw [if_pos hin]
  refine ⟨rfl, rfl, fun qx qz => rfl, ?_, fun a e f h => ?_, rfl⟩
  · simp [updateCell]
  · unfold updateCell
    exact if_neg h

/-- Witness for C10: editing the centre cell of a freshly generated unit
chunk (local coordinates `(0,0,0)`, world coordinates `(-1/2, 0, -1/2)`). -/
theorem C10_setBlockAt_frame_witness :
    (((VolumetricChunk.generate 0 0 1 fun _ => 0).setBlockAt (-1/2) 0 (-1/2)
        BlockType.WOOD).2 = true) ∧
    (((VolumetricChunk.generate 0 0 1 fun _ => 0).setBlockAt (-1/2) 0 (-1/2)
        BlockType.WOOD).1.terrain.blockData 0 0 0 = some BlockType.WOOD) := by
  have h := C10_setBlockAt_frame (VolumetricChunk.generate 0 0 1 fun _ => 0)
    (-1/2) 0 (-1/2) BlockType.WOOD 0 0 0
    (by norm_num [VolumetricChunk.generate, VolumetricTerrain.generate])
    (by norm_num)
    (by norm_num [VolumetricChunk.generate, VolumetricTerrain.generate])
    (by norm_num [VolumetricChunk.generate, VolumetricTerrain.generate])
  exact ⟨h.1, h.2.2.2.1⟩

/-- `updateChunks` always leaves `currentChunk` at the player's key. -/
theorem updateChunks_currentChunk (chunkSize : ℕ) (p : ℚ × ℚ) (s : StreamState) :
    (updateChunks chunkSize p s).currentChunk = chunkKeyOf chunkSize p.1 p.2 := by
  by_cases hc : chunkKeyOf chunkSize p.1 p.2 = s.currentChunk
  · simp only [updateChunks, if_pos hc]
    exact hc.symm
  · simp only [updateChunks, if_neg hc]

/-- `updateChunks` preserves the streaming invariant
`loaded = neighbourhood(currentChunk)`. -/
theorem updateChunks_loaded_inv (chunkSize : ℕ) (p : ℚ × ℚ) (s : StreamState)
    (h : s.loaded = chunkNeighborhood chunkSize s.currentChunk) :
    (updateChunks chunkSize p s).loaded =
      chunkNeighborhood chunkSize (updateChunks chunkSize p s).currentChunk := by
  by_cases hc : chunkKeyOf chunkSize p.1 p.2 = s.currentChunk
  · simp only [updateChunks, if_pos hc]
    exact h
  · simp only [updateChunks, if_neg hc]
    ext k
    simp only [Finset.mem_filter, Finset.mem_union]
    exact ⟨fun hk => hk.2, fun hk => ⟨Or.inr hk, hk⟩⟩

/-- Folding a move sequence through `updateChunks` preserves the streaming
invariant. -/
theorem streamFold_inv (chunkSize : ℕ) (moves : List (ℚ × ℚ)) (s : StreamState)
    (h : s.loaded = chunkNeighborhood chunkSize s.currentChunk) :
    (moves.foldl (fun st p => updateChunks chunkSize p st) s).loaded =
      chunkNeighborhood chunkSize
        ((moves.foldl (fun st p => updateChunks chunkSize p st) s).currentChunk) := by
  induction moves generalizing s with
  | nil => exact h
  | cons p rest ih => exact ih _ (updateChunks_loaded_inv chunkSize p s h)

/-- The position the manager last reconciled against: the final element of
the move sequence, or the starting position when no tick happened yet. -/
def lastPos (p₀ : ℚ × ℚ) (moves : List (ℚ × ℚ)) : ℚ × ℚ :=
  moves.foldl (fun _ p => p) p₀

/-- After folding a move sequence, `currentChunk` is the key of the last
position (or of the starting position if no move happened). -/
theorem streamFold_current (chunkSize : ℕ) (moves : List (ℚ × ℚ)) (s : StreamState)
    (p₀ : ℚ × ℚ) (h : s.currentChunk = chunkKeyOf chunkSize p₀.1 p₀.2) :
    (moves.foldl (fun st p => updateChunks chunkSize p st) s).currentChunk =
      chunkKeyOf chunkSize (lastPos p₀ moves).1 (lastPos p₀ moves).2 := by
  induction moves generalizing s p₀ with
  | nil => exact h
  | cons p rest ih =>
    exact ih (updateChunks chunkSize p s) p (updateChunks_currentChunk chunkSize p s)

/-- **C2**: after initialization, and after any sequence of ticks in which the
streaming manager reconciles against the player position, the loaded
chunk-key set equals exactly the 3×3 grid of keys centred on the chunk the
player currently occupies — no extra keys, no missing keys (`moves = []` is
the just-initialized state; otherwise the player's position is the last
reconciled one). -/
theorem C2_chunk_streaming (chunkSize : ℕ) (p₀ : ℚ × ℚ) (moves : List (ℚ × ℚ)) :
    (moves.foldl (fun st p => updateChunks chunkSize p st)
        (generateInitialChunks chunkSize p₀)).loaded =
      chunkNeighborhood chunkSize
        (chunkKeyOf chunkSize (lastPos p₀ moves).1 (lastPos p₀ moves).2) := by
  rw [streamFold_inv chunkSize moves _ rfl, streamFold_current chunkSize moves _ p₀ rfl]

/-! ## C5: the interpolation contract -/

/-- Modelled from the spec (§4.1): the cubic Hermite smoothstep
`3t² − 2t³`. -/
def hermite (t : ℚ) : ℚ := 3 * t ^ 2 - 2 * t ^ 3

/-- Modelled from the spec (§4.1): sample a 2D grid at fractional
coordinates by combining the 4 enclosing corners with products of
smoothstep-weighted fractional parts, clamping index overflow at the grid
edge (no wraparound). -/
def specSmoothSample2D (grid : ℕ → ℕ → ℚ) (rows cols : ℕ) (x z : ℚ) : ℚ :=
  let i0 : ℤ := ⌊x⌋
  let i1 : ℤ := min (i0 + 1) ((rows : ℤ) - 1)
  let k0 : ℤ := ⌊z⌋
  let k1 : ℤ := min (k0 + 1) ((cols : ℤ) - 1)
  let u := hermite (x - (i0 : ℚ))
  let v := hermite (z - (k0 : ℚ))
  (1 - u) * (1 - v) * grid i0.toNat k0.toNat +
    u * (1 - v) * grid i1.toNat k0.toNat +
    (1 - u) * v * grid i0.toNat k1.toNat +
    u * v * grid i1.toNat k1.toNat

/-- Modelled from the spec (§4.1): the 3D analogue over the 8 enclosing
corners. -/
def specSmoothSample3D (grid : ℕ → ℕ → ℕ → ℚ) (d1 d2 d3 : ℕ) (x y z : ℚ) : ℚ :=
  let i0 : ℤ := ⌊x⌋
  let i1 : ℤ := min (i0 + 1) ((d1 : ℤ) - 1)
  let j0 : ℤ := ⌊y⌋
  let j1 : ℤ := min (j0 + 1) ((d2 : ℤ) - 1)
  let k0 : ℤ := ⌊z⌋
  let k1 : ℤ := min (k0 + 1) ((d3 : ℤ) - 1)
  let u := hermite (x - (i0 : ℚ))
  let v := hermite (y - (j0 : ℚ))
  let w := hermite (z - (k0 : ℚ))
  (1 - u) * (1 - v) * (1 - w) * grid i0.toNat j0.toNat k0.toNat +
    u * (1 - v) * (1 - w) * grid i1.toNat j0.toNat k0.toNat +
    (1 - u) * v * (1 - w) * grid i0.toNat j1.toNat k0.toNat +
    u * v * (1 - w) * grid i1.toNat j1.toNat k0.toNat +
    (1 - u) * (1 - v) * w * grid i0.toNat j0.toNat k1.toNat +
    u * (1 - v) * w * grid i1.toNat j0.toNat k1.toNat +
    (1 - u) * v * w * grid i0.toNat j1.toNat k1.toNat +
    u * v * w * grid i1.toNat j1.toNat k1.toNat

/-- The same corner combination with plain (unsmoothed) fractional weights:
what the height-field `Chunk`'s bilinear sampler actually computes. -/
def specLinearSample2D (grid : ℕ → ℕ → ℚ) (rows cols : ℕ) (x z : ℚ) : ℚ :=
  let i0 : ℤ := ⌊x⌋
  let i1 : ℤ := min (i0 + 1) ((rows : ℤ) - 1)
  let k0 : ℤ := ⌊z⌋
  let k1 : ℤ := min (k0 + 1) ((cols : ℤ) - 1)
  let u := x - (i0 : ℚ)
  let v := z - (k0 : ℚ)
  (1 - u) * (1 - v) * grid i0.toNat k0.toNat +
    u * (1 - v) * grid i1.toNat k0.toNat +
    (1 - u) * v * grid i0.toNat k1.toNat +
    u * v * grid i1.toNat k1.toNat

theorem lerp2_expand (a b c d u v : ℚ) :
    lerp (lerp a b u) (lerp c d u) v =
      (1 - u) * (1 - v) * a + u * (1 - v) * b + (1 - u) * v * c + u * v * d := by
  simp only [lerp]
  ring

theorem lerp3_expand (a b c d e f g h u v w : ℚ) :
    lerp (lerp (lerp a b u) (lerp c d u) v) (lerp (lerp e f u) (lerp g h u) v) w =
      (1 - u) * (1 - v) * (1 - w) * a + u * (1 - v) * (1 - w) * b +
      (1 - u) * v * (1 - w) * c + u * v * (1 - w) * d +
      (1 - u) * (1 - v) * w * e + u * (1 - v) * w * f +
      (1 - u) * v * w * g + u * v * w * h := by
  simp only [lerp]
  ring

theorem smoothStep_eq_hermite (t : ℚ) : smoothStep t = hermite t := by
  simp only [smoothStep, hermite]
  ring

/-- **C5 (amended)**: the volumetric generator's bilinear and trilinear
samplers interpolate among the 4 (resp. 8) enclosing grid corners with
smoothstep weights (cubic Hermite `3t² − 2t³` of each fractional part),
clamping index overflow at the grid edge with no wraparound; the
height-field `Chunk`'s bilinear sampler uses the same corners and clamping
but plain linear weights, with no smoothstep. -/
theorem C5_interpolation_weights (grid : ℕ → ℕ → ℚ) (grid3 : ℕ → ℕ → ℕ → ℚ)
    (rows cols d1 d2 d3 : ℕ) (x y z : ℚ) :
    bilinearInterpolation grid rows cols x z = specSmoothSample2D grid rows cols x z ∧
    trilinearInterpolation grid3 d1 d2 d3 x y z = specSmoothSample3D grid3 d1 d2 d3 x y z ∧
    chunkBilinearInterpolation grid rows cols x z = specLinearSample2D grid rows cols x z := by
  refine ⟨?_, ?_, ?_⟩
  · simp only [bilinearInterpolation, specSmoothSample2D, smoothStep_eq_hermite]
    exact lerp2_expand _ _ _ _ _ _
  · simp only [trilinearInterpolation, specSmoothSample3D, smoothStep_eq_hermite]
    exact lerp3_expand _ _ _ _ _ _ _ _ _ _ _
  · simp only [chunkBilinearInterpolation, specLinearSample2D]
    exact lerp2_expand _ _ _ _ _ _

set_option maxRecDepth 10000 in
unseal Rat.add Rat.mul Rat.inv Rat.sub in
/-- Counterexample to **C5 as stated**: the claim requires every bilinear
sampler to use smoothstep weights, but the height-field
`Chunk.bilinearInterpolation` uses raw fractional weights: on the 2×2 grid
with first row 0 and second row 1, sampled at `(x, z) = (1/4, 0)`, the
chunk sampler yields `1/4` while the smoothstep-weighted interpolation of
the same corners yields `smoothstep(1/4) = 5/32`. -/
theorem C5_counterexample :
    chunkBilinearInterpolation (fun i _ => if i = 0 then 0 else 1) 2 2 (1 / 4) 0 = 1 / 4 ∧
    specSmoothSample2D (fun i _ => if i = 0 then 0 else 1) 2 2 (1 / 4) 0 = 5 / 32 ∧
    chunkBilinearInterpolation (fun i _ => if i = 0 then 0 else 1) 2 2 (1 / 4) 0 ≠
      specSmoothSample2D (fun i _ => if i = 0 then 0 else 1) 2 2 (1 / 4) 0 := by
  decide

/-! ## C1: determinism of generation -/

set_option maxRecDepth 100000 in
unseal Rat.add Rat.mul Rat.inv Rat.sub in
/-- Counterexample to **C1 as stated**: two fresh volumetric instances for
the same key `(1, 0)` and size 1 disagree on the block grid (and on the
extracted block list) when their ambient `Math.random()` streams differ —
ore seeding reads the global `Math.random()`: a stream of `0`s passes the
5% ore gate and turns the lone stone cell to coal, a stream of `1/2`s skips
it and leaves stone. -/
theorem C1_counterexample :
    (VolumetricTerrain.generate 1 0 1 fun _ => 0).blockData 0 0 0 = some BlockType.COAL ∧
    (VolumetricTerrain.generate 1 0 1 fun _ => 1 / 2).blockData 0 0 0 = some BlockType.STONE ∧
    (VolumetricTerrain.generate 1 0 1 fun _ => 0).blockData 0 0 0 ≠
      (VolumetricTerrain.generate 1 0 1 fun _ => 1 / 2).blockData 0 0 0 ∧
    extractBlocks 1 0 1 (VolumetricTerrain.generate 1 0 1 fun _ => 0).blockData ≠
      extractBlocks 1 0 1 (VolumetricTerrain.generate 1 0 1 fun _ => 1 / 2).blockData := by
  decide

/-- **C1 (amended)**: generation is deterministic in the chunk key, the size
and the ambient `Math.random()` stream: fresh volumetric instances for the
same key and size always produce identical height maps (the height-map
pipeline never reads `Math.random()`), and when the two constructions read
identical ambient streams the block grids and the extracted block lists are
also identical. (The height-field generator's height map is a pure function
of the key and size in this embedding — `chunkHeights` — with no ambient
dependence at all, so two fresh height-field instances always agree.) -/
theorem C1_determinism (cx cz : ℤ) (size : ℕ) (r₁ r₂ : ℕ → ℚ) :
    (VolumetricTerrain.generate cx cz size r₁).heightMap =
      (VolumetricTerrain.generate cx cz size r₂).heightMap ∧
    (r₁ = r₂ →
      (VolumetricTerrain.generate cx cz size r₁).blockData =
        (VolumetricTerrain.generate cx cz size r₂).blockData ∧
      extractBlocks cx cz size (VolumetricTerrain.generate cx cz size r₁).blockData =
        extractBlocks cx cz size (VolumetricTerrain.generate cx cz size r₂).blockData) := by
  refine ⟨rfl, fun h => ?_⟩
  subst h
  exact ⟨rfl, rfl⟩

/-- Witness for C1 (amended): equal streams at key `(1,0)`, size 1. -/
theorem C1_determinism_witness :
    (VolumetricTerrain.generate 1 0 1 fun _ => 0).blockData =
      (VolumetricTerrain.generate 1 0 1 fun _ => 0).blockData :=
  ((C1_determinism 1 0 1 (fun _ => 0) (fun _ => 0)).2 rfl).1

/-! ## C6: visibility extraction -/

/-- Membership in the triple scan list is exactly in-range. -/
theorem mem_cellsList3 {a b d : ℕ} {c : ℕ × ℕ × ℕ} :
    c ∈ cellsList3 a b d ↔ c.1 < a ∧ c.2.1 < b ∧ c.2.2 < d := by
  obtain ⟨x, y, z⟩ := c
  simp [cellsList3, List.mem_product]

/-- The scan list visits each cell once. -/
theorem nodup_cellsList3 (a b d : ℕ) : (cellsList3 a b d).Nodup :=
  (List.nodup_range a).product ((List.nodup_range b).product (List.nodup_range d))

/-- The world-space instance `extractBlocks` emits for cell `(x,y,z)` of
type `t`. -/
def cellBlock (cx cz : ℤ) (size x y z : ℕ) (t : BlockType) : Block :=
  ⟨((cx : ℚ) - (size : ℚ) / 2) + (x : ℚ), (y : ℚ),
   ((cz : ℚ) - (size : ℚ) / 2) + (z : ℚ), t⟩

/-- A block is in the extracted list exactly when some in-range cell holds a
non-air material, is not hidden, and maps to it. -/
theorem mem_extractBlocks {cx cz : ℤ} {size : ℕ}
    {data : ℕ → ℕ → ℕ → Option BlockType} {b : Block} :
    b ∈ extractBlocks cx cz size data ↔
      ∃ x y z t, x < size ∧ y < size ∧ z < size ∧ data x y z = some t ∧
        t ≠ BlockType.AIR ∧ isBlockHidden data size x y z = false ∧
        b = cellBlock cx cz size x y z t := by
  unfold extractBlocks
  rw [List.mem_filterMap]
  constructor
  · rintro ⟨c, hc, hf⟩
    obtain ⟨hx, hy, hz⟩ := mem_cellsList3.mp hc
    rcases hdata : data c.1 c.2.1 c.2.2 with _ | t
    · simp [hdata] at hf
    · simp only [hdata] at hf
      by_cases hair : t = BlockType.AIR
      · simp [hair] at hf
      · cases hhid : isBlockHidden data size c.1 c.2.1 c.2.2 with
        | true => simp [hair, hhid] at hf
        | false =>
          refine ⟨c.1, c.2.1, c.2.2, t, hx, hy, hz, hdata, hair, hhid, ?_⟩
          rw [if_neg hair, hhid] at hf
          simp only [Bool.false_eq_true, if_false, Option.some.injEq] at hf
          exact hf.symm
  · rintro ⟨x, y, z, t, hx, hy, hz, hdata, hair, hhid, hb⟩
    refine ⟨(x, y, z), mem_cellsList3.mpr ⟨hx, hy, hz⟩, ?_⟩
    simp [hdata, hair, hhid, hb, cellBlock]

/-- The cell → world-instance map is injective cell-wise (and in the
type). -/
theorem cellBlock_inj {cx cz : ℤ} {size x y z x' y' z' : ℕ} {t t' : BlockType}
    (h : cellBlock cx cz size x y z t = cellBlock cx cz size x' y' z' t') :
    x = x' ∧ y = y' ∧ z = z' ∧ t = t' := by
  injection h with h1 h2 h3 h4
  refine ⟨?_, ?_, ?_, h4⟩
  · exact_mod_cast add_left_cancel h1
  · exact_mod_cast h2
  · exact_mod_cast add_left_cancel h3

/-- Water and lava cells are never hidden. -/
theorem isBlockHidden_transparent {data : ℕ → ℕ → ℕ → Option BlockType} {size x y z : ℕ}
    {t : BlockType} (hcell : data x y z = some t)
    (ht : t = BlockType.WATER ∨ t = BlockType.LAVA) :
    isBlockHidden data size x y z = false := by
  unfold isBlockHidden
  rcases ht with ht | ht <;> simp [hcell, ht]

/-- **C6 (amended)**: in the volumetric extraction, an *opaque* material cell
(not air, water or lava) whose 6 axis-aligned neighbours are all in-bounds,
solid and opaque does not appear in the extracted list; a material cell
(`≠ air`, `≠ null`) with at least one neighbour that is out-of-chunk-bounds,
air, `null`, water or lava does appear; and every water or lava cell appears
regardless of its neighbours. (`neighborCovers … = true` is precisely
"in-bounds, solid and opaque".) -/
theorem C6_visibility (data : ℕ → ℕ → ℕ → Option BlockType) (size : ℕ) (cx cz : ℤ)
    (x y z : ℕ) (t : BlockType) (hx : x < size) (hy : y < size) (hz : z < size)
    (hcell : data x y z = some t) :
    ((t ≠ BlockType.AIR ∧ t ≠ BlockType.WATER ∧ t ≠ BlockType.LAVA) →
      (∀ d ∈ sixDirs,
        neighborCovers data size ((x : ℤ) + d.1) ((y : ℤ) + d.2.1) ((z : ℤ) + d.2.2) = true) →
      cellBlock cx cz size x y z t ∉ extractBlocks cx cz size data) ∧
    (t ≠ BlockType.AIR →
      (∃ d ∈ sixDirs,
        neighborCovers data size ((x : ℤ) + d.1) ((y : ℤ) + d.2.1) ((z : ℤ) + d.2.2) = false) →
      cellBlock cx cz size x y z t ∈ extractBlocks cx cz size data) ∧
    ((t = BlockType.WATER ∨ t = BlockType.LAVA) →
      cellBlock cx cz size x y z t ∈ extractBlocks cx cz size data) := by
  refine ⟨fun hopq hcov hmem => ?_, fun hair huncov => ?_, fun ht => ?_⟩
  · obtain ⟨x', y', z', t', _, _, _, hdata', _, hhid', hb⟩ := mem_extractBlocks.mp hmem
    obtain ⟨hxx, hyy, hzz, htt⟩ := cellBlock_inj hb
    rw [← hxx, ← hyy, ← hzz] at hhid'
    have hhidden : isBlockHidden data size x y z = true := by
      unfold isBlockHidden
      have hcur : ¬(data x y z = some BlockType.WATER ∨ data x y z = some BlockType.LAVA) := by
        rw [hcell]
        rintro (h | h) <;> injection h with h' <;> exact absurd h' (by tauto)
      rw [if_neg hcur]
      exact List.all_eq_true.mpr fun d hd => hcov d hd
    rw [hhid'] at hhidden
    cases hhidden
  · have hnothid : isBlockHidden data size x y z = false := by
      by_cases hwl : t = BlockType.WATER ∨ t = BlockType.LAVA
      · exact isBlockHidden_transparent hcell hwl
      · unfold isBlockHidden
        have hcur : ¬(data x y z = some BlockType.WATER ∨ data x y z = some BlockType.LAVA) := by
          rw [hcell]
          rintro (h | h) <;> injection h with h' <;> exact hwl (by tauto)
        rw [if_neg hcur]
        obtain ⟨d, hd, hdf⟩ := huncov
        exact List.all_eq_false.mpr ⟨d, hd, by simp [hdf]⟩
    exact mem_extractBlocks.mpr ⟨x, y, z, t, hx, hy, hz, hcell, hair, hnothid, rfl⟩
  · have hair : t ≠ BlockType.AIR := by rcases ht with ht | ht <;> simp [ht]
    exact mem_extractBlocks.mpr
      ⟨x, y, z, t, hx, hy, hz, hcell, hair, isBlockHidden_transparent hcell ht, rfl⟩

/-- Witness for C6 (amended): in a 3³ grid of stone, the centre stone cell is
fully enclosed and is not extracted. -/
theorem C6_visibility_witness :
    cellBlock 0 0 3 1 1 1 BlockType.STONE ∉
      extractBlocks 0 0 3 (fun _ _ _ => some BlockType.STONE) :=
  ((C6_visibility (fun _ _ _ => some BlockType.STONE) 3 0 0 1 1 1 BlockType.STONE
    (by decide) (by decide) (by decide) rfl).1 (by decide) (by decide))

/-- The block grid refuting C6 as stated: a 3³ chunk of stone whose centre
cell is water (a state reachable from any generated chunk through the
`setBlockAt` edit interface). -/
def cexData : ℕ → ℕ → ℕ → Option BlockType := fun x y z =>
  if x = 1 ∧ y = 1 ∧ z = 1 then some BlockType.WATER else some BlockType.STONE

set_option maxRecDepth 10000 in
unseal Rat.add Rat.mul Rat.inv Rat.sub in
/-- Counterexample to **C6 as stated**: the centre water cell of `cexData`
is a non-air cell all of whose 6 neighbours are in-bounds, solid and opaque,
so by the claim it must not appear in the extracted list — yet
`extractBlocks` emits it (water is never culled). -/
theorem C6_counterexample :
    (cexData 1 1 1 = some BlockType.WATER) ∧
    (∀ d ∈ sixDirs,
      neighborCovers cexData 3 ((1 : ℤ) + d.1) ((1 : ℤ) + d.2.1) ((1 : ℤ) + d.2.2) = true) ∧
    cellBlock 0 0 3 1 1 1 BlockType.WATER ∈ extractBlocks 0 0 3 cexData := by
  decide

/-! ## C7: cave carving -/

/-- A cave step writes no cell but its own. -/
theorem caveCellStep_other (cx cz : ℤ) (size : ℕ) (rand : ℕ → ℚ)
    (st : (ℕ → ℕ → ℕ → Option BlockType) × ℕ) (c c' : ℕ × ℕ × ℕ) (hne : c' ≠ c) :
    (caveCellStep cx cz size rand st c).1 c'.1 c'.2.1 c'.2.2 =
      st.1 c'.1 c'.2.1 c'.2.2 := by
  have hu : ∀ v, updateCell st.1 c.1 c.2.1 c.2.2 v c'.1 c'.2.1 c'.2.2 =
      st.1 c'.1 c'.2.1 c'.2.2 := by
    intro v
    unfold updateCell
    rw [if_neg]
    rintro ⟨h1, h2, h3⟩
    exact hne (Prod.ext h1 (Prod.ext h2 h3))
  simp only [caveCellStep]
  split_ifs <;> first | rfl | exact hu _

/-- Folding cave steps over a cell list not containing `c` leaves `c`
untouched. -/
theorem cavesFold_not_mem (cx cz : ℤ) (size : ℕ) (rand : ℕ → ℚ) :
    ∀ (l : List (ℕ × ℕ × ℕ)) (st : (ℕ → ℕ → ℕ → Option BlockType) × ℕ)
      (c : ℕ × ℕ × ℕ), c ∉ l →
      (l.foldl (caveCellStep cx cz size rand) st).1 c.1 c.2.1 c.2.2 =
        st.1 c.1 c.2.1 c.2.2 := by
  intro l
  induction l with
  | nil => intro st c _; rfl
  | cons a l ih =>
    intro st c hc
    rw [List.foldl_cons, ih _ _ fun h => hc (List.mem_cons_of_mem a h)]
    exact caveCellStep_other cx cz size rand st a c
      fun h => hc (h ▸ List.mem_cons_self a l)

/-- At a cell visited exactly once, the fold's final value at that cell is
the step applied to some intermediate state that still held the cell's
original value. -/
theorem cavesFold_at_mem (cx cz : ℤ) (size : ℕ) (rand : ℕ → ℚ) :
    ∀ (l : List (ℕ × ℕ × ℕ)) (st : (ℕ → ℕ → ℕ → Option BlockType) × ℕ)
      (c : ℕ × ℕ × ℕ), c ∈ l → l.Nodup →
      ∃ stB : (ℕ → ℕ → ℕ → Option BlockType) × ℕ,
        stB.1 c.1 c.2.1 c.2.2 = st.1 c.1 c.2.1 c.2.2 ∧
        (l.foldl (caveCellStep cx cz size rand) st).1 c.1 c.2.1 c.2.2 =
          (caveCellStep cx cz size rand stB c).1 c.1 c.2.1 c.2.2 := by
  intro l
  induction l with
  | nil => intro st c hc; cases hc
  | cons a l ih =>
    intro st c hc hnd
    rw [List.foldl_cons]
    rcases List.mem_cons.mp hc with rfl | hmem
    · exact ⟨st, rfl, cavesFold_not_mem cx cz size rand l _ c (List.nodup_cons.mp hnd).1⟩
    · obtain ⟨stB, hB1, hB2⟩ :=
        ih (caveCellStep cx cz size rand st a) c hmem (List.nodup_cons.mp hnd).2
      refine ⟨stB, ?_, hB2⟩
      rw [hB1]
      exact caveCellStep_other cx cz size rand st a c
        fun h => (List.nodup_cons.mp hnd).1 (h ▸ hmem)

/-- The behaviour of one cave step at its own cell: skipped cells (above the
cave ceiling, in the water band, below the noise threshold, or already air)
keep their value; carved cells become air, or lava only below world height 12
and above the chunk floor. -/
theorem caveCellStep_self (cx cz : ℤ) (size : ℕ) (rand : ℕ → ℚ)
    (st : (ℕ → ℕ → ℕ → Option BlockType) × ℕ) (c : ℕ × ℕ × ℕ) :
    ((vHeightMap cx cz size c.1 c.2.2 - 5 < (c.2.1 : ℚ) ∨
      ((c.2.1 : ℚ) < 37 ∧ 25 < (c.2.1 : ℚ)) ∨
      ¬(vCaveThreshold cx cz size c.1 c.2.1 c.2.2 <
        vCaveCombined cx cz size c.1 c.2.1 c.2.2) ∨
      st.1 c.1 c.2.1 c.2.2 = some BlockType.AIR) →
      (caveCellStep cx cz size rand st c).1 c.1 c.2.1 c.2.2 = st.1 c.1 c.2.1 c.2.2) ∧
    (¬(vHeightMap cx cz size c.1 c.2.2 - 5 < (c.2.1 : ℚ)) →
      ¬((c.2.1 : ℚ) < 37 ∧ 25 < (c.2.1 : ℚ)) →
      vCaveThreshold cx cz size c.1 c.2.1 c.2.2 <
        vCaveCombined cx cz size c.1 c.2.1 c.2.2 →
      st.1 c.1 c.2.1 c.2.2 ≠ some BlockType.AIR →
      ((caveCellStep cx cz size rand st c).1 c.1 c.2.1 c.2.2 = some BlockType.AIR ∨
       ((caveCellStep cx cz size rand st c).1 c.1 c.2.1 c.2.2 = some BlockType.LAVA ∧
        (c.2.1 : ℚ) < 12 ∧ 0 < c.2.1))) := by
  constructor
  · intro hskip
    simp only [caveCellStep]
    split_ifs with h1 h2 h3 h4 h5 <;> first | rfl | tauto
  · intro hA hB hC hD
    simp only [caveCellStep]
    split_ifs with h3 h4 h5
    · right
      exact ⟨by simp [updateCell], h4.1, h4.2.1⟩
    · left
      simp [updateCell]
    · left
      simp [updateCell]
    · exact absurd ⟨hC, hD⟩ h3

/-- The volume fill never places lava. -/
theorem vFillBlock_ne_lava (cx cz : ℤ) (size : ℕ) (x y z : ℕ) :
    vFillBlock cx cz size x y z ≠ BlockType.LAVA := by
  simp only [vFillBlock]
  split_ifs <;> simp

/-- **C7 (amended)**: the cave-carving stage (run on the volume-fill output
as in `generateTerrain`) does nothing at all in chunks failing the
`(chunkX + chunkZ) % (2·size) == 0` gate; in gated-in chunks it changes an
in-range cell exactly when the combined two-noise value exceeds the
depth-decreasing threshold, the cell lies at or below
`surfaceHeight − 5`, outside the shallow water band `(25, 37)`, and was not
already air — and a changed cell becomes air, or lava only when its world
height is below 12 and it is above the chunk floor. -/
theorem C7_cave_carving (cx cz : ℤ) (size : ℕ) (rand : ℕ → ℚ) (x y z : ℕ)
    (hx : x < size) (hy : y < size) (hz : z < size) :
    (((cx + cz) % ((size : ℤ) * 2) ≠ 0 →
      (vGenerateCaves cx cz size rand (vFilledData cx cz size, 0)).1 =
        vFilledData cx cz size)) ∧
    ((vHeightMap cx cz size x z - 5 < (y : ℚ) ∨ ((y : ℚ) < 37 ∧ 25 < (y : ℚ))) →
      (vGenerateCaves cx cz size rand (vFilledData cx cz size, 0)).1 x y z =
        vFilledData cx cz size x y z) ∧
    ((cx + cz) % ((size : ℤ) * 2) = 0 →
      ((vGenerateCaves cx cz size rand (vFilledData cx cz size, 0)).1 x y z ≠
          vFilledData cx cz size x y z ↔
        (¬(vHeightMap cx cz size x z - 5 < (y : ℚ)) ∧
         ¬((y : ℚ) < 37 ∧ 25 < (y : ℚ)) ∧
         vCaveThreshold cx cz size x y z < vCaveCombined cx cz size x y z ∧
         vFilledData cx cz size x y z ≠ some BlockType.AIR))) ∧
    ((vGenerateCaves cx cz size rand (vFilledData cx cz size, 0)).1 x y z ≠
        vFilledData cx cz size x y z →
      ((vGenerateCaves cx cz size rand (vFilledData cx cz size, 0)).1 x y z =
          some BlockType.AIR ∨
       ((vGenerateCaves cx cz size rand (vFilledData cx cz size, 0)).1 x y z =
          some BlockType.LAVA ∧ (y : ℚ) < 12 ∧ 0 < y))) := by
  have hmem : ((x, y, z) : ℕ × ℕ × ℕ) ∈ cellsList3 size size size :=
    mem_cellsList3.mpr ⟨hx, hy, hz⟩
  have hchar := cavesFold_at_mem cx cz size rand (cellsList3 size size size)
    (vFilledData cx cz size, 0) (x, y, z) hmem (nodup_cellsList3 size size size)
  refine ⟨fun hpar => ?_, fun hskip => ?_, fun hpar => ⟨fun hch => ?_, fun hcond => ?_⟩,
    fun hch => ?_⟩
  · unfold vGenerateCaves
    rw [if_pos hpar]
  · by_cases hpar : (cx + cz) % ((size : ℤ) * 2) ≠ 0
    · unfold vGenerateCaves
      rw [if_pos hpar]
    · unfold vGenerateCaves
      rw [if_neg hpar]
      obtain ⟨stB, hB1, hB2⟩ := hchar
      rw [hB2, (caveCellStep_self cx cz size rand stB (x, y, z)).1 (by tauto), hB1]
  · unfold vGenerateCaves at hch
    rw [if_neg (by simpa using hpar)] at hch
    obtain ⟨stB, hB1, hB2⟩ := hchar
    rw [hB2] at hch
    by_cases hA : vHeightMap cx cz size x z - 5 < (y : ℚ)
    · exact absurd ((caveCellStep_self cx cz size rand stB (x, y, z)).1 (by tauto) |>.trans
        hB1) hch
    · by_cases hB : (y : ℚ) < 37 ∧ 25 < (y : ℚ)
      · exact absurd ((caveCellStep_self cx cz size rand stB (x, y, z)).1 (by tauto) |>.trans
          hB1) hch
      · by_cases hC : vCaveThreshold cx cz size x y z < vCaveCombined cx cz size x y z
        · by_cases hD : vFilledData cx cz size x y z = some BlockType.AIR
          · exact absurd ((caveCellStep_self cx cz size rand stB (x, y, z)).1
              (by rw [hB1]; tauto) |>.trans hB1) hch
          · exact ⟨hA, hB, hC, hD⟩
        · exact absurd ((caveCellStep_self cx cz size rand stB (x, y, z)).1 (by tauto) |>.trans
            hB1) hch
  · obtain ⟨hA, hB, hC, hD⟩ := hcond
    unfold vGenerateCaves
    rw [if_neg (by simpa using hpar)]
    obtain ⟨stB, hB1, hB2⟩ := hchar
    rw [hB2]
    have hres := (caveCellStep_self cx cz size rand stB (x, y, z)).2 hA hB hC
      (by rw [hB1]; exact hD)
    have hfill : vFilledData cx cz size x y z = some (vFillBlock cx cz size x y z) := by
      unfold vFilledData
      rw [if_pos ⟨hx, hy, hz⟩]
    rcases hres with h | ⟨h, _, _⟩
    · rw [h, hfill]
      intro hcontra
      rw [hfill] at hD
      exact hD hcontra.symm
    · rw [h, hfill]
      intro hcontra
      exact vFillBlock_ne_lava cx cz size x y z (Option.some.injEq .. |>.mp hcontra.symm)
  · by_cases hpar : (cx + cz) % ((size : ℤ) * 2) ≠ 0
    · unfold vGenerateCaves at hch
      rw [if_pos hpar] at hch
      exact absurd rfl hch
    · unfold vGenerateCaves at hch ⊢
      rw [if_neg hpar] at hch ⊢
      obtain ⟨stB, hB1, hB2⟩ := hchar
      rw [hB2] at hch ⊢
      by_cases hA : vHeightMap cx cz size x z - 5 < (y : ℚ)
      · exact absurd ((caveCellStep_self cx cz size rand stB (x, y, z)).1 (by tauto) |>.trans
          hB1) hch
      · by_cases hB : (y : ℚ) < 37 ∧ 25 < (y : ℚ)
        · exact absurd ((caveCellStep_self cx cz size rand stB (x, y, z)).1 (by tauto) |>.trans
            hB1) hch
        · by_cases hC : vCaveThreshold cx cz size x y z < vCaveCombined cx cz size x y z
          · by_cases hD : stB.1 x y z = some BlockType.AIR
            · exact absurd ((caveCellStep_self cx cz size rand stB (x, y, z)).1
                (by tauto) |>.trans hB1) hch
            · exact (caveCellStep_self cx cz size rand stB (x, y, z)).2 hA hB hC hD
          · exact absurd ((caveCellStep_self cx cz size rand stB (x, y, z)).1 (by tauto)
              |>.trans hB1) hch

set_option maxRecDepth 100000 in
unseal Rat.add Rat.mul Rat.inv Rat.sub in
/-- Counterexample to **C7 as stated**: in the size-1 chunk with key
`(1, 0)`, the cell `(0,0,0)` satisfies every carve condition of the claim —
its combined cave noise exceeds the depth-dependent threshold, it lies well
below `surfaceHeight − minimumCaveDepth`, outside the shallow water band,
and holds stone — yet the cave stage leaves it as stone, because the whole
stage is skipped in every chunk with `(chunkX + chunkZ) % (2·size) ≠ 0`. -/
theorem C7_counterexample :
    (vCaveThreshold 1 0 1 0 0 0 < vCaveCombined 1 0 1 0 0 0) ∧
    ¬(vHeightMap 1 0 1 0 0 - 5 < (0 : ℚ)) ∧
    ¬(((0 : ℕ) : ℚ) < 37 ∧ 25 < ((0 : ℕ) : ℚ)) ∧
    vFilledData 1 0 1 0 0 0 = some BlockType.STONE ∧
    (vGenerateCaves 1 0 1 (fun _ => 0) (vFilledData 1 0 1, 0)).1 0 0 0 =
      some BlockType.STONE := by
  decide

/-- Witness for C7 (amended): the parity-skipped chunk `(1, 0)` of size 1
leaves the fill output unchanged. -/
theorem C7_cave_carving_witness :
    (vGenerateCaves 1 0 1 (fun _ => 0) (vFilledData 1 0 1, 0)).1 = vFilledData 1 0 1 :=
  (C7_cave_carving 1 0 1 (fun _ => 0) 0 0 0 (by decide) (by decide) (by decide)).1
    (by decide)

/-! ## C4: height-map bounds -/

/-- The mulberry32 scrambler stays below `2^32`. -/
theorem mulScramble_lt (s : ℕ) : mulScramble s < U32 := by
  simp only [mulScramble]
  have hU : 0 < U32 := by norm_num [U32]
  have h32 : U32 = 2 ^ 32 := rfl
  set a := ((s ^^^ (s >>> 15)) * (s ||| 1)) % U32 with ha
  set b := ((a + ((a ^^^ (a >>> 7)) * (a ||| 61)) % U32) % U32) ^^^ a with hb
  have halt : a < 2 ^ 32 := h32 ▸ Nat.mod_lt _ hU
  have hblt : b < 2 ^ 32 :=
    Nat.xor_lt_two_pow (h32 ▸ Nat.mod_lt _ hU) halt
  rw [h32]
  refine Nat.xor_lt_two_pow hblt (lt_of_le_of_lt ?_ hblt)
  rw [Nat.shiftRight_eq_div_pow]
  exact Nat.div_le_self _ _

/-- Every mulberry32 draw lies in `[0, 1)`. -/
theorem mulberryDraw_mem (h k : ℕ) : 0 ≤ mulberryDraw h k ∧ mulberryDraw h k < 1 := by
  unfold mulberryDraw
  constructor
  · positivity
  · rw [div_lt_one (by norm_num [U32])]
    exact_mod_cast mulScramble_lt _

/-- Every white-noise grid cell lies in `[0, 1]`. -/
theorem vWhiteNoiseGrid_mem (seed : String) (size i j : ℕ) :
    0 ≤ vWhiteNoiseGrid seed size i j ∧ vWhiteNoiseGrid seed size i j ≤ 1 :=
  ⟨(mulberryDraw_mem _ _).1, le_of_lt (mulberryDraw_mem _ _).2⟩

/-- A lerp with weight in `[0, 1]` stays in the endpoints' interval. -/
theorem lerp_mem {lo hi a b t : ℚ} (ha : lo ≤ a ∧ a ≤ hi) (hb : lo ≤ b ∧ b ≤ hi)
    (ht : 0 ≤ t ∧ t ≤ 1) : lo ≤ lerp a b t ∧ lerp a b t ≤ hi := by
  unfold lerp
  constructor <;> nlinarith [ha.1, ha.2, hb.1, hb.2, ht.1, ht.2]

/-- The smoothstep of a `[0, 1]` weight is a `[0, 1]` weight. -/
theorem smoothStep_mem {t : ℚ} (h0 : 0 ≤ t) (h1 : t ≤ 1) :
    0 ≤ smoothStep t ∧ smoothStep t ≤ 1 := by
  unfold smoothStep
  constructor
  · nlinarith
  · nlinarith [mul_nonneg (sq_nonneg (1 - t)) (show (0 : ℚ) ≤ 1 + 2 * t by linarith)]

/-- The fractional part `x - ⌊x⌋` is a `[0, 1]` weight. -/
theorem fract_mem (x : ℚ) : 0 ≤ x - (⌊x⌋ : ℚ) ∧ x - (⌊x⌋ : ℚ) ≤ 1 :=
  ⟨by linarith [Int.floor_le x], by linarith [Int.lt_floor_add_one x]⟩

/-- Bilinear interpolation of a grid bounded in `[lo, hi]` is bounded in
`[lo, hi]`. -/
theorem bilinearInterpolation_mem {lo hi : ℚ} (grid : ℕ → ℕ → ℚ) (rows cols : ℕ)
    (hg : ∀ i j, lo ≤ grid i j ∧ grid i j ≤ hi) (x z : ℚ) :
    lo ≤ bilinearInterpolation grid rows cols x z ∧
      bilinearInterpolation grid rows cols x z ≤ hi :=
  lerp_mem
    (lerp_mem (hg _ _) (hg _ _) (smoothStep_mem (fract_mem x).1 (fract_mem x).2))
    (lerp_mem (hg _ _) (hg _ _) (smoothStep_mem (fract_mem x).1 (fract_mem x).2))
    (smoothStep_mem (fract_mem z).1 (fract_mem z).2)

/-- A running-`min` fold is at most its initial value. -/
theorem foldl_min_le_init {α : Type} (f : α → ℚ) :
    ∀ (l : List α) (init : ℚ), l.foldl (fun m c => min m (f c)) init ≤ init := by
  intro l
  induction l with
  | nil => intro init; exact le_rfl
  | cons a l ih => intro init; exact le_trans (ih _) (min_le_left _ _)

/-- A running-`min` fold is at most each scanned value. -/
theorem foldl_min_le {α : Type} (f : α → ℚ) :
    ∀ (l : List α) (init : ℚ) (c : α), c ∈ l →
      l.foldl (fun m c => min m (f c)) init ≤ f c := by
  intro l
  induction l with
  | nil => intro _ c hc; cases hc
  | cons a l ih =>
    intro init c hc
    rcases List.mem_cons.mp hc with rfl | hmem
    · exact le_trans (foldl_min_le_init f l _) (min_le_right _ _)
    · exact ih _ c hmem

/-- A running-`max` fold is at least its initial value. -/
theorem le_foldl_max_init {α : Type} (f : α → ℚ) :
    ∀ (l : List α) (init : ℚ), init ≤ l.foldl (fun m c => max m (f c)) init := by
  intro l
  induction l with
  | nil => intro init; exact le_rfl
  | cons a l ih => intro init; exact le_trans (le_max_left _ _) (ih _)

/-- A running-`max` fold is at least each scanned value. -/
theorem le_foldl_max {α : Type} (f : α → ℚ) :
    ∀ (l : List α) (init : ℚ) (c : α), c ∈ l →
      f c ≤ l.foldl (fun m c => max m (f c)) init := by
  intro l
  induction l with
  | nil => intro _ c hc; cases hc
  | cons a l ih =>
    intro init c hc
    rcases List.mem_cons.mp hc with rfl | hmem
    · exact le_trans (le_max_right _ _) (le_foldl_max_init f l _)
    · exact ih _ c hmem

/-- Membership in the 2D scan list is exactly in-range. -/
theorem mem_cellsList2 {w h : ℕ} {c : ℕ × ℕ} :
    c ∈ cellsList2 w h ↔ c.1 < w ∧ c.2 < h := by
  obtain ⟨x, z⟩ := c
  simp [cellsList2, List.mem_product]

/-- The raw single-octave 2D noise lies in `[0, 1]`. -/
theorem gen2DRaw_one_mem (w h : ℕ) (scale : ℚ) (seed : String) (x z : ℕ) :
    0 ≤ gen2DRaw w h scale seed 1 x z ∧ gen2DRaw w h scale seed 1 x z ≤ 1 := by
  unfold gen2DRaw
  rw [show List.range 1 = [0] from rfl]
  simp only [List.foldl_cons, List.foldl_nil, pow_zero, mul_one, zero_add]
  exact bilinearInterpolation_mem _ _ _ (fun i j => vWhiteNoiseGrid_mem _ _ i j) _ _

/-- The normalized single-octave 2D noise lies in `[0, 1]` at every in-range
cell. -/
theorem generate2DNoise_one_mem (w h : ℕ) (scale : ℚ) (seed : String) (x z : ℕ)
    (hx : x < w) (hz : z < h) :
    0 ≤ generate2DNoise w h scale seed 1 x z ∧ generate2DNoise w h scale seed 1 x z ≤ 1 := by
  have hmem : ((x, z) : ℕ × ℕ) ∈ cellsList2 w h := mem_cellsList2.mpr ⟨hx, hz⟩
  have hmin : gen2DMin w h scale seed 1 ≤ gen2DRaw w h scale seed 1 x z := by
    simpa [gen2DMin] using foldl_min_le (fun c : ℕ × ℕ => gen2DRaw w h scale seed 1 c.1 c.2)
      (cellsList2 w h) 1 (x, z) hmem
  have hmax : gen2DRaw w h scale seed 1 x z ≤ gen2DMax w h scale seed 1 := by
    simpa [gen2DMax] using le_foldl_max (fun c : ℕ × ℕ => gen2DRaw w h scale seed 1 c.1 c.2)
      (cellsList2 w h) 0 (x, z) hmem
  simp only [generate2DNoise]
  split_ifs with hr
  · constructor
    · exact div_nonneg (by linarith) (by linarith)
    · rw [div_le_one (by linarith)]
      linarith
  · exact gen2DRaw_one_mem w h scale seed x z

/-- The biome field lies in `[0, 1]` at every in-range cell. -/
theorem vBiomeNoise_mem (cx cz : ℤ) (size : ℕ) (x z : ℕ) (hx : x < size) (hz : z < size) :
    0 ≤ vBiomeNoise cx cz size x z ∧ vBiomeNoise cx cz size x z ≤ 1 :=
  generate2DNoise_one_mem size size 80 _ x z hx hz

/-- Each surface octave sample lies in `[0, 1]`. -/
theorem vSurfaceSample_mem (cx cz : ℤ) (size o x z : ℕ) :
    0 ≤ vSurfaceSample cx cz size o x z ∧ vSurfaceSample cx cz size o x z ≤ 1 := by
  simp only [vSurfaceSample]
  exact bilinearInterpolation_mem _ _ _ (fun i j => vWhiteNoiseGrid_mem _ _ i j) _ _

/-- The pre-biome surface height lies in `[19, 61]`
(base 40 ± the octave amplitudes 12 + 6 + 3). -/
theorem vSurfacePre_mem (cx cz : ℤ) (size : ℕ) (x z : ℕ) :
    19 ≤ vSurfacePre cx cz size x z ∧ vSurfacePre cx cz size x z ≤ 61 := by
  unfold vSurfacePre
  rw [show List.range 3 = [0, 1, 2] from rfl]
  simp only [List.foldl_cons, List.foldl_nil]
  have h0 := vSurfaceSample_mem cx cz size 0 x z
  have h1 := vSurfaceSample_mem cx cz size 1 x z
  have h2 := vSurfaceSample_mem cx cz size 2 x z
  norm_num
  constructor <;> nlinarith [h0.1, h0.2, h1.1, h1.2, h2.1, h2.2]

/-- The biome-adjusted surface height lies in `[4, 91]`. -/
theorem vAfterBiome_mem (cx cz : ℤ) (size : ℕ) (x z : ℕ) (hx : x < size) (hz : z < size) :
    4 ≤ vAfterBiome cx cz size x z ∧ vAfterBiome cx cz size x z ≤ 91 := by
  have hb := vBiomeNoise_mem cx cz size x z hx hz
  have hh := vSurfacePre_mem cx cz size x z
  simp only [vAfterBiome]
  split_ifs with h1 h2 <;> constructor <;> nlinarith [hb.1, hb.2, hh.1, hh.2]

/-- The smoothing accumulator preserves the weighted-interval invariant
(sum bounded by the bound times the accumulated weight). -/
theorem smoothAcc_inv (f : ℕ → ℕ → ℚ) (size i j : ℕ) (lo hi : ℚ)
    (hf : ∀ a b, a < size → b < size → lo ≤ f a b ∧ f a b ≤ hi) :
    ∀ (l : List (ℤ × ℤ)) (acc : ℚ × ℚ),
      lo * acc.2 ≤ acc.1 ∧ acc.1 ≤ hi * acc.2 ∧ 0 ≤ acc.2 →
      lo * (l.foldl (smoothAccStep f size i j) acc).2 ≤
          (l.foldl (smoothAccStep f size i j) acc).1 ∧
        (l.foldl (smoothAccStep f size i j) acc).1 ≤
          hi * (l.foldl (smoothAccStep f size i j) acc).2 ∧
        0 ≤ (l.foldl (smoothAccStep f size i j) acc).2 := by
  intro l
  induction l with
  | nil => intro acc hacc; exact hacc
  | cons dd l ih =>
    intro acc hacc
    rw [List.foldl_cons]
    apply ih
    simp only [smoothAccStep]
    split_ifs with hin
    · obtain ⟨hn1, hn2, hn3, hn4⟩ := hin
      have hw : 0 < (1 : ℚ) / (1 + |(dd.1 : ℚ)| + |(dd.2 : ℚ)|) := by positivity
      have hfv := hf ((i : ℤ) + dd.1).toNat ((j : ℤ) + dd.2).toNat
        (by omega) (by omega)
      exact ⟨by nlinarith [hacc.1, hfv.1, hw], by nlinarith [hacc.2.1, hfv.2, hw],
        by nlinarith [hacc.2.2, hw]⟩
    · exact hacc

/-- The smoothed surface height lies in `[4, 91]` at every in-range cell. -/
theorem vSmoothed_mem (cx cz : ℤ) (size : ℕ) (i j : ℕ) (hi : i < size) (hj : j < size) :
    4 ≤ vSmoothed cx cz size i j ∧ vSmoothed cx cz size i j ≤ 91 := by
  have hf : ∀ a b, a < size → b < size →
      4 ≤ vAfterBiome cx cz size a b ∧ vAfterBiome cx cz size a b ≤ 91 :=
    fun a b ha hb => vAfterBiome_mem cx cz size a b ha hb
  simp only [vSmoothed]
  split_ifs with hint hpos
  · have hinv := smoothAcc_inv (vAfterBiome cx cz size) size i j 4 91 hf kernelOffsets
      (0, 0) (by norm_num)
    constructor
    · rw [le_div_iff hpos]
      exact hinv.1
    · rw [div_le_iff hpos]
      exact hinv.2.1
  · exact vAfterBiome_mem cx cz size i j hi hj
  · exact vAfterBiome_mem cx cz size i j hi hj

/-- **C4**: after generation, every in-range cell of a chunk's height map is
a defined integer between the generators' min and max heights — for the
height-field generator the explicit clamp bounds `[0, 100]`, and for the
volumetric generator the provable noise bounds `[4, 91] ⊆ [0, 100]` (it has
no clamp) — in particular never negative; in the rational embedding every
cell is a defined value, and the `16 ≤ size` hypothesis is exactly the
regime in which the height-field octave grids are non-degenerate (no
`NaN`/undefined in the JS source). -/
theorem C4_heightmap_bounds (cx cz : ℤ) (size : ℕ) (i j : ℕ)
    (hi : i < size) (hj : j < size) (hs : 16 ≤ size) :
    (∃ k : ℤ, chunkHeights cx cz size i j = (k : ℚ) ∧ 0 ≤ k ∧ k ≤ 100) ∧
    (∃ k : ℤ, vHeightMap cx cz size i j = (k : ℚ) ∧ 0 ≤ k ∧ k ≤ 100) := by
  constructor
  · refine ⟨min 100 (max 0 ⌊chunkHeightsPre cx cz size i j + 40⌋), ?_, ?_, ?_⟩
    · unfold chunkHeights
      push_cast
      rfl
    · exact le_min (by norm_num) (le_max_left 0 _)
    · exact min_le_left _ _
  · obtain ⟨h4, h91⟩ := vSmoothed_mem cx cz size i j hi hj
    refine ⟨⌊vSmoothed cx cz size i j⌋, rfl, ?_, ?_⟩
    · have h : (4 : ℤ) ≤ ⌊vSmoothed cx cz size i j⌋ :=
        Int.le_floor.mpr (by exact_mod_cast h4)
      omega
    · have h : (⌊vSmoothed cx cz size i j⌋ : ℚ) ≤ 91 :=
        le_trans (Int.floor_le _) h91
      have h' : ⌊vSmoothed cx cz size i j⌋ ≤ (91 : ℤ) := by exact_mod_cast h
      omega

/-- Witness for C4: the smallest non-degenerate size, cell `(0, 0)` of the
origin chunk. -/
theorem C4_heightmap_bounds_witness :
    (∃ k : ℤ, chunkHeights 0 0 16 0 0 = (k : ℚ) ∧ 0 ≤ k ∧ k ≤ 100) ∧
    (∃ k : ℤ, vHeightMap 0 0 16 0 0 = (k : ℚ) ∧ 0 ≤ k ∧ k ≤ 100) :=
  C4_heightmap_bounds 0 0 16 0 0 (by norm_num) (by norm_num) (by norm_num)

/-- In the flat world a height query returns the flat height or the
out-of-bounds sentinel `-1`, nothing else. -/
theorem flat_heightAt_cases (cx cz : ℤ) (cs : ℕ) (H : ℚ) (wx wz : ℚ) :
    chunkGetHeightAt cx cz cs (fun _ _ => H) wx wz = H ∨
    chunkGetHeightAt cx cz cs (fun _ _ => H) wx wz = -1 := by
  simp only [chunkGetHeightAt]
  split_ifs
  · exact Or.inl rfl
  · exact Or.inr rfl

/-- A column in the owning half of its key chunk (the chunk covers
`[key - size/2, key + size/2)` while keys step by `size`) reads the flat
height. -/
theorem flat_center_heightAt (cs : ℕ) (hcs : 0 < cs) (H x z : ℚ)
    (hx : x - (⌊x / (cs : ℚ)⌋ : ℚ) * cs < (cs : ℚ) / 2)
    (hz : z - (⌊z / (cs : ℚ)⌋ : ℚ) * cs < (cs : ℚ) / 2) :
    chunkGetHeightAt ((chunkKeyOf cs x z).1) ((chunkKeyOf cs x z).2) cs
      (fun _ _ => H) x z = H := by
  have hcsQ : (0 : ℚ) < (cs : ℚ) := by exact_mod_cast hcs
  have hxlo : (⌊x / (cs : ℚ)⌋ : ℚ) * cs ≤ x := by
    have h1 : (⌊x / (cs : ℚ)⌋ : ℚ) ≤ x / (cs : ℚ) := Int.floor_le _
    have h2 := mul_le_mul_of_nonneg_right h1 (le_of_lt hcsQ)
    rwa [div_mul_cancel₀ x (ne_of_gt hcsQ)] at h2
  have hzlo : (⌊z / (cs : ℚ)⌋ : ℚ) * cs ≤ z := by
    have h1 : (⌊z / (cs : ℚ)⌋ : ℚ) ≤ z / (cs : ℚ) := Int.floor_le _
    have h2 := mul_le_mul_of_nonneg_right h1 (le_of_lt hcsQ)
    rwa [div_mul_cancel₀ z (ne_of_gt hcsQ)] at h2
  simp only [chunkGetHeightAt, chunkKeyOf]
  split_ifs with hcond
  · rfl
  · exfalso
    apply hcond
    refine ⟨?_, ?_, ?_, ?_⟩
    · exact Int.le_floor.mpr (by push_cast; linarith)
    · exact Int.floor_lt.mpr (by push_cast; linarith)
    · exact Int.le_floor.mpr (by push_cast; linarith)
    · exact Int.floor_lt.mpr (by push_cast; linarith)

/-- Folding a flat-world height sample into a `some H` running maximum keeps
`some H`. -/
theorem flat_optStep (cs : ℕ) (H : ℚ) (hH : 0 ≤ H) (a : ℚ × ℚ) :
    optMaxUpd (some H) (chunkGetHeightAt ((chunkKeyOf cs a.1 a.2).1)
      ((chunkKeyOf cs a.1 a.2).2) cs (fun _ _ => H) a.1 a.2) = some H := by
  rcases flat_heightAt_cases ((chunkKeyOf cs a.1 a.2).1) ((chunkKeyOf cs a.1 a.2).2)
      cs H a.1 a.2 with hc | hc
  · rw [hc]
    simp only [optMaxUpd]
    rw [if_neg (lt_irrefl H)]
  · rw [hc]
    simp only [optMaxUpd]
    rw [if_neg (by linarith : ¬ H < (-1 : ℚ))]

/-- A fold whose step fixes the accumulator never moves off it. -/
theorem foldl_fixed {α : Type} (F : Option ℚ → α → Option ℚ) (M : Option ℚ)
    (hF : ∀ a, F M a = M) : ∀ l : List α, l.foldl F M = M := by
  intro l
  induction l with
  | nil => rfl
  | cons a t ih =>
    rw [List.foldl_cons, hF a]
    exact ih

/-- A fold from `none` whose first step lands on a fixed point stays there. -/
theorem foldl_optstep_eq {α : Type} (F : Option ℚ → α → Option ℚ) (M : Option ℚ)
    (hF : ∀ a, F M a = M) (hd : α) (tl : List α) (hhd : F none hd = M) :
    (hd :: tl).foldl F none = M := by
  rw [List.foldl_cons, hhd]
  exact foldl_fixed F M hF tl

/-- In the flat world, the terrain sample below a column in the owning half
of its chunk is exactly `some H`. -/
theorem getTerrainHeightBelow_flat (env : MathEnv) (cs : ℕ) (hcs : 0 < cs) (H : ℚ)
    (hH : 0 ≤ H) (px pz : ℚ)
    (hx : px - (⌊px / (cs : ℚ)⌋ : ℚ) * cs < (cs : ℚ) / 2)
    (hz : pz - (⌊pz / (cs : ℚ)⌋ : ℚ) * cs < (cs : ℚ) / 2) :
    getTerrainHeightBelow env cs (flatWorld cs H) px pz = some H := by
  simp only [getTerrainHeightBelow, List.singleton_append]
  refine foldl_optstep_eq _ (some H) ?_ _ _ ?_
  · intro a
    show optMaxUpd (some H) (chunkGetHeightAt ((chunkKeyOf cs a.1 a.2).1)
      ((chunkKeyOf cs a.1 a.2).2) cs (fun _ _ => H) a.1 a.2) = some H
    exact flat_optStep cs H hH a
  · show optMaxUpd none (chunkGetHeightAt ((chunkKeyOf cs px pz).1)
      ((chunkKeyOf cs px pz).2) cs (fun _ _ => H) px pz) = some H
    rw [flat_center_heightAt cs hcs H px pz hx hz]
    rfl

/-- Same statement for the robust sampler (the missing-chunk fallback never
fires in the everywhere-loaded flat world). -/
theorem getRobustTerrainHeightBelow_flat (env : MathEnv) (cs : ℕ) (hcs : 0 < cs) (H : ℚ)
    (hH : 0 ≤ H) (px pz : ℚ)
    (hx : px - (⌊px / (cs : ℚ)⌋ : ℚ) * cs < (cs : ℚ) / 2)
    (hz : pz - (⌊pz / (cs : ℚ)⌋ : ℚ) * cs < (cs : ℚ) / 2) :
    getRobustTerrainHeightBelow env cs (flatWorld cs H) px pz = some H := by
  simp only [getRobustTerrainHeightBelow, robustPoints, List.append_assoc,
    List.singleton_append]
  refine foldl_optstep_eq _ (some H) ?_ _ _ ?_
  · intro a
    show optMaxUpd (some H) (chunkGetHeightAt ((chunkKeyOf cs a.1 a.2).1)
      ((chunkKeyOf cs a.1 a.2).2) cs (fun _ _ => H) a.1 a.2) = some H
    exact flat_optStep cs H hH a
  · show optMaxUpd none (chunkGetHeightAt ((chunkKeyOf cs px pz).1)
      ((chunkKeyOf cs px pz).2) cs (fun _ _ => H) px pz) = some H
    rw [flat_center_heightAt cs hcs H px pz hx hz]
    rfl

/-- Any colliding sample point in the flat world lies at or below `H`. -/
theorem flat_pointCollides_le (cs : ℕ) (H : ℚ) (hH : 0 ≤ H) (pt : ℚ × ℚ × ℚ)
    (h : pointCollides cs (flatWorld cs H) pt = true) : pt.2.1 ≤ H := by
  have h2 : 0 ≤ chunkGetHeightAt ((chunkKeyOf cs pt.1 pt.2.2).1)
      ((chunkKeyOf cs pt.1 pt.2.2).2) cs (fun _ _ => H) pt.1 pt.2.2 ∧
      pt.2.1 ≤ chunkGetHeightAt ((chunkKeyOf cs pt.1 pt.2.2).1)
      ((chunkKeyOf cs pt.1 pt.2.2).2) cs (fun _ _ => H) pt.1 pt.2.2 :=
    of_decide_eq_true h
  rcases flat_heightAt_cases ((chunkKeyOf cs pt.1 pt.2.2).1)
      ((chunkKeyOf cs pt.1 pt.2.2).2) cs H pt.1 pt.2.2 with hc | hc
  · rw [hc] at h2
    exact h2.2
  · rw [hc] at h2
    linarith [h2.1, h2.2]

/-- The player's own column collides whenever the tested height is at or
below `H`. -/
theorem flat_center_collides (cs : ℕ) (hcs : 0 < cs) (H : ℚ) (hH : 0 ≤ H) (px yc pz : ℚ)
    (hx : px - (⌊px / (cs : ℚ)⌋ : ℚ) * cs < (cs : ℚ) / 2)
    (hz : pz - (⌊pz / (cs : ℚ)⌋ : ℚ) * cs < (cs : ℚ) / 2)
    (hyc : yc ≤ H) :
    pointCollides cs (flatWorld cs H) (px, yc, pz) = true := by
  show decide (0 ≤ chunkGetHeightAt ((chunkKeyOf cs px pz).1) ((chunkKeyOf cs px pz).2) cs
      (fun _ _ => H) px pz ∧
      yc ≤ chunkGetHeightAt ((chunkKeyOf cs px pz).1) ((chunkKeyOf cs px pz).2) cs
      (fun _ _ => H) px pz) = true
  rw [flat_center_heightAt cs hcs H px pz hx hz]
  exact decide_eq_true ⟨hH, hyc⟩

/-- Every point of the standard collision constellation sits at body height
`y - 2` or above. -/
theorem collisionPoints_y_lb (env : MathEnv) (px y pz : ℚ) (pt : ℚ × ℚ × ℚ)
    (h : pt ∈ collisionPoints env (px, y, pz)) : y - 2 ≤ pt.2.1 := by
  simp only [collisionPoints, List.mem_append, List.mem_singleton, List.mem_map,
    List.mem_flatMap, List.mem_cons, List.not_mem_nil, or_false, List.mem_range] at h
  rcases h with (rfl | ⟨i, hi, rfl⟩) | ⟨hh, hhmem, i, hi, rfl⟩
  · exact le_refl (y - 2)
  · exact le_refl (y - 2)
  · rcases hhmem with rfl | rfl
    · exact (by linarith : y - 2 ≤ y - 1)
    · exact (by linarith : y - 2 ≤ y - 1 / 5)

/-- `checkCollision` in the flat world at a column in the owning half of its
chunk holds exactly when the head is within player height of the surface. -/
theorem flat_checkCollision_iff (env : MathEnv) (cs : ℕ) (hcs : 0 < cs) (H : ℚ)
    (hH : 0 ≤ H) (px y pz : ℚ)
    (hx : px - (⌊px / (cs : ℚ)⌋ : ℚ) * cs < (cs : ℚ) / 2)
    (hz : pz - (⌊pz / (cs : ℚ)⌋ : ℚ) * cs < (cs : ℚ) / 2) :
    (checkCollision env cs (flatWorld cs H) (px, y, pz) = true) ↔ y - 2 ≤ H := by
  simp only [checkCollision, List.any_eq_true]
  constructor
  · rintro ⟨pt, hmem, hcol⟩
    have h1 := flat_pointCollides_le cs H hH pt hcol
    have h2 := collisionPoints_y_lb env px y pz pt hmem
    linarith
  · intro h
    refine ⟨(px, y - 2, pz), ?_, flat_center_collides cs hcs H hH px (y - 2) pz hx hz
      (by linarith)⟩
    simp only [collisionPoints, List.mem_append, List.mem_singleton]
    exact Or.inl (Or.inl trivial)

/-- In the everywhere-loaded flat world the thorough per-point test agrees
with the standard one (the missing-chunk fallback is dead code there). -/
theorem flat_thorough_eq (cs : ℕ) (H : ℚ) :
    thoroughPointCollides cs (flatWorld cs H) = pointCollides cs (flatWorld cs H) := rfl

/-- Every point of the thorough collision constellation sits at body height
`y - 2` or above. -/
theorem thoroughPoints_y_lb (env : MathEnv) (px y pz : ℚ) (pt : ℚ × ℚ × ℚ)
    (h : pt ∈ thoroughPoints env (px, y, pz)) : y - 2 ≤ pt.2.1 := by
  simp only [thoroughPoints, List.mem_append, List.mem_singleton, List.mem_map,
    List.mem_flatMap, List.mem_cons, List.not_mem_nil, or_false, List.mem_range] at h
  rcases h with ((rfl | ⟨i, hi, rfl⟩) | ⟨rr, hrr, rfl⟩) | ⟨hh, hhmem, i, hi, rfl⟩
  · exact le_refl (y - 2)
  · exact le_refl (y - 2)
  · exact le_refl (y - 2)
  · rcases hhmem with rfl | rfl | rfl
    · exact (by linarith : y - 2 ≤ y - 2 + 1 / 2)
    · exact (by linarith : y - 2 ≤ y - 2 + 1)
    · exact (by linarith : y - 2 ≤ y - 2 + 3 / 2)

/-- `checkThoroughCollision` in the flat world at an owning-half column also
holds exactly when the head is within player height of the surface. -/
theorem flat_checkThoroughCollision_iff (env : MathEnv) (cs : ℕ) (hcs : 0 < cs) (H : ℚ)
    (hH : 0 ≤ H) (px y pz : ℚ)
    (hx : px - (⌊px / (cs : ℚ)⌋ : ℚ) * cs < (cs : ℚ) / 2)
    (hz : pz - (⌊pz / (cs : ℚ)⌋ : ℚ) * cs < (cs : ℚ) / 2) :
    (checkThoroughCollision env cs (flatWorld cs H) (px, y, pz) = true) ↔ y - 2 ≤ H := by
  simp only [checkThoroughCollision, flat_thorough_eq, List.any_eq_true]
  constructor
  · rintro ⟨pt, hmem, hcol⟩
    have h1 := flat_pointCollides_le cs H hH pt hcol
    have h2 := thoroughPoints_y_lb env px y pz pt hmem
    linarith
  · intro h
    refine ⟨(px, y - 2, pz), ?_, flat_center_collides cs hcs H hH px (y - 2) pz hx hz
      (by linarith)⟩
    simp only [thoroughPoints, List.mem_append, List.mem_singleton]
    exact Or.inl (Or.inl (Or.inl trivial))

/-- The vertical sub-step walk keeps the committed height strictly above the
collision bound, and on a collision the committed height is within one step
of the bound. -/
theorem substepWalk_spec (B : ℚ) (check : ℚ → Bool)
    (hcheck : ∀ yy, check yy = true ↔ yy ≤ B) (y0 sz : ℚ) :
    ∀ (left i : ℕ) (fy : ℚ), B < fy → fy = y0 + sz * ((i : ℚ) - 1) →
      B < (substepWalk check y0 sz i left fy).1 ∧
      ((substepWalk check y0 sz i left fy).2 = true →
        (substepWalk check y0 sz i left fy).1 ≤ B - sz) := by
  intro left
  induction left with
  | zero =>
    intro i fy hfy _
    simp only [substepWalk]
    exact ⟨hfy, fun hco => absurd hco Bool.false_ne_true⟩
  | succ l ih =>
    intro i fy hfy hfyeq
    simp only [substepWalk]
    split_ifs with hchk
    · have hle : y0 + sz * (i : ℚ) ≤ B := (hcheck _).mp hchk
      refine ⟨hfy, fun _ => ?_⟩
      show fy ≤ B - sz
      rw [hfyeq]
      linarith
    · have hgt : ¬ (y0 + sz * (i : ℚ) ≤ B) := fun hle => hchk ((hcheck _).mpr hle)
      exact ih (i + 1) (y0 + sz * (i : ℚ)) (by linarith) (by push_cast; ring)

/-- Zero walk input skips PART 2 entirely. -/
theorem horizontalMove_zero (env : MathEnv) (cs : ℕ) (world : ChunkMap) (th : Option ℚ)
    (s : PState) : horizontalMove env cs world (0, 0, 0) th s = (s, false) := by
  simp only [horizontalMove]
  rw [if_pos ⟨trivial, trivial, trivial⟩]

/-- PART 3 on a grounded flat-world state within one unit of the surface
snaps the head to `H + 2`. -/
theorem finalGroundAdjust_grounded (env : MathEnv) (cs : ℕ) (hcs : 0 < cs) (H : ℚ)
    (hH : 0 ≤ H) (t : PState)
    (hx : t.px - (⌊t.px / (cs : ℚ)⌋ : ℚ) * cs < (cs : ℚ) / 2)
    (hz : t.pz - (⌊t.pz / (cs : ℚ)⌋ : ℚ) * cs < (cs : ℚ) / 2)
    (hog : t.onGround = true) (hdrop : t.py - 2 - H ≤ 1) :
    finalGroundAdjust env cs (flatWorld cs H) t = { t with py := H + 2 } := by
  simp only [finalGroundAdjust]
  rw [if_pos hog]
  simp only [getTerrainHeightBelow_flat env cs hcs H hH t.px t.pz hx hz]
  rw [if_neg (by linarith : ¬ (1 < t.py - 2 - H))]

/-- PART 3 leaves an airborne state untouched. -/
theorem finalGroundAdjust_air (env : MathEnv) (cs : ℕ) (world : ChunkMap) (t : PState)
    (hog : t.onGround = false) :
    finalGroundAdjust env cs world t = t := by
  simp only [finalGroundAdjust, hog, Bool.false_eq_true, if_false]

/-- PART 1's airborne segment in the flat world: the column never moves, and
the player either lands just above the surface with zero vertical velocity or
remains strictly airborne with unchanged (non-positive) vertical velocity. -/
theorem verticalSubstep_flat (env : MathEnv) (cs : ℕ) (hcs : 0 < cs) (H : ℚ) (hH : 0 ≤ H)
    (s : PState)
    (hx : s.px - (⌊s.px / (cs : ℚ)⌋ : ℚ) * cs < (cs : ℚ) / 2)
    (hz : s.pz - (⌊s.pz / (cs : ℚ)⌋ : ℚ) * cs < (cs : ℚ) / 2)
    (hair : H + 2 < s.py) (hvy1 : -21 ≤ s.vy) (hvy0 : s.vy ≤ 0)
    (hog : s.onGround = false) :
    (verticalSubstep env cs (flatWorld cs H) s).px = s.px ∧
    (verticalSubstep env cs (flatWorld cs H) s).pz = s.pz ∧
    (((verticalSubstep env cs (flatWorld cs H) s).onGround = true ∧
      H + 2 < (verticalSubstep env cs (flatWorld cs H) s).py ∧
      (verticalSubstep env cs (flatWorld cs H) s).py ≤ H + 3 ∧
      (verticalSubstep env cs (flatWorld cs H) s).vy = 0) ∨
     ((verticalSubstep env cs (flatWorld cs H) s).onGround = false ∧
      H + 2 < (verticalSubstep env cs (flatWorld cs H) s).py ∧
      (verticalSubstep env cs (flatWorld cs H) s).vy ≤ 0)) := by
  have hcheck : ∀ yy : ℚ,
      ((fun nextY => if s.vy < -10 then
          checkThoroughCollision env cs (flatWorld cs H) (s.px, nextY, s.pz)
        else checkCollision env cs (flatWorld cs H) (s.px, nextY, s.pz)) yy = true) ↔
        yy ≤ H + 2 := by
    intro yy
    dsimp only
    split_ifs with hen
    · rw [flat_checkThoroughCollision_iff env cs hcs H hH s.px yy s.pz hx hz]
      constructor <;> intro h <;> linarith
    · rw [flat_checkCollision_iff env cs hcs H hH s.px yy s.pz hx hz]
      constructor <;> intro h <;> linarith
  simp only [verticalSubstep]
  rw [hog]
  set N : ℕ := max 10 (⌈|s.vy * (2 / 125)| / (1 / 20)⌉).toNat with hN
  set W := substepWalk
      (fun nextY => if s.vy < -10 then
          checkThoroughCollision env cs (flatWorld cs H) (s.px, nextY, s.pz)
        else checkCollision env cs (flatWorld cs H) (s.px, nextY, s.pz))
      s.py (s.vy * (2 / 125) / (N : ℚ)) 1 N s.py with hWdef
  have hNpos : (0 : ℚ) < (N : ℚ) := by
    have h10 : (10 : ℕ) ≤ N := le_max_left _ _
    have : (0 : ℕ) < N := lt_of_lt_of_le (by norm_num) h10
    exact_mod_cast this
  have hw := substepWalk_spec (H + 2)
      (fun nextY => if s.vy < -10 then
          checkThoroughCollision env cs (flatWorld cs H) (s.px, nextY, s.pz)
        else checkCollision env cs (flatWorld cs H) (s.px, nextY, s.pz))
      hcheck s.py (s.vy * (2 / 125) / (N : ℚ)) N 1 s.py hair (by push_cast; ring)
  rw [← hWdef] at hw
  obtain ⟨hw1, hw2⟩ := hw
  by_cases hc : W.2 = true
  · -- landed: velocity was strictly downward, state snaps grounded near the surface
    have hfin : W.1 ≤ H + 2 - s.vy * (2 / 125) / (N : ℚ) := hw2 hc
    have hszneg : s.vy * (2 / 125) / (N : ℚ) < 0 := by linarith
    have hintneg : s.vy * (2 / 125) < 0 := by
      by_contra hpos
      push_neg at hpos
      have := div_nonneg hpos (le_of_lt hNpos)
      linarith
    rw [if_pos hc, if_pos hintneg]
    dsimp only
    simp only [getRobustTerrainHeightBelow_flat env cs hcs H hH s.px s.pz hx hz]
    rw [if_neg (by linarith : ¬ (W.1 - 2 < H))]
    refine ⟨rfl, rfl, Or.inl ⟨rfl, hw1, ?_, rfl⟩⟩
    have hb2 : (10 : ℚ) ≤ (N : ℚ) := by exact_mod_cast le_max_left 10 _
    have hb1 : -(s.vy * (2 / 125)) ≤ 42 / 125 := by linarith
    have hb3 : -(s.vy * (2 / 125) / (N : ℚ)) ≤ 1 := by
      rw [← neg_div]
      calc -(s.vy * (2 / 125)) / (N : ℚ) ≤ (42 / 125) / 10 :=
            div_le_div (by norm_num) hb1 (by norm_num) hb2
        _ ≤ 1 := by norm_num
    show W.1 ≤ H + 3
    linarith
  · rw [if_neg hc]
    dsimp only
    simp only [getRobustTerrainHeightBelow_flat env cs hcs H hH s.px s.pz hx hz]
    rw [if_neg (by linarith : ¬ (W.1 - 2 < H))]
    exact ⟨rfl, rfl, Or.inr ⟨rfl, hw1, hvy0⟩⟩

/-- A grounded flat-world state on the surface is a fixed point of
`applyPhysics` (up to the re-snap), preserving the landing invariant. -/
theorem applyPhysics_flat_grounded (env : MathEnv) (cs : ℕ) (hcs : 0 < cs) (H : ℚ)
    (hH : 0 ≤ H) (s : PState)
    (hx : s.px - (⌊s.px / (cs : ℚ)⌋ : ℚ) * cs < (cs : ℚ) / 2)
    (hz : s.pz - (⌊s.pz / (cs : ℚ)⌋ : ℚ) * cs < (cs : ℚ) / 2)
    (hog : s.onGround = true) (hpy : s.py = H + 2) (hvy : s.vy = 0) :
    flatInv H s.px s.pz (applyPhysics env cs (flatWorld cs H) (0, 0, 0) (some H) s) := by
  simp only [applyPhysics]
  rw [hpy, hvy]
  rw [show max (min (0 : ℚ) 20) (-20) = 0 from by norm_num]
  rw [if_neg (by linarith : ¬ (H + 2 - 2 < H - 1 / 10))]
  rw [if_pos (by linarith : H + 2 - 2 - H ≤ 1 / 20)]
  dsimp only
  rw [if_neg (by simp : ¬ (¬ (true = true) ∨ (0 : ℚ) < 0))]
  rw [horizontalMove_zero]
  dsimp only
  rw [if_neg Bool.false_ne_true]
  have hfin := finalGroundAdjust_grounded env cs hcs H hH
      ⟨s.px, H + 2, s.pz, s.vx, 0, s.vz, true⟩ hx hz rfl
      (by show H + 2 - 2 - H ≤ (1 : ℚ); linarith)
  rw [hfin]
  exact ⟨rfl, rfl, Or.inl ⟨rfl, rfl, rfl⟩⟩

/-- An airborne, non-rising flat-world state above the surface keeps the
landing invariant across `applyPhysics`. -/
theorem applyPhysics_flat_air (env : MathEnv) (cs : ℕ) (hcs : 0 < cs) (H : ℚ)
    (hH : 0 ≤ H) (s : PState)
    (hx : s.px - (⌊s.px / (cs : ℚ)⌋ : ℚ) * cs < (cs : ℚ) / 2)
    (hz : s.pz - (⌊s.pz / (cs : ℚ)⌋ : ℚ) * cs < (cs : ℚ) / 2)
    (hog : s.onGround = false) (hair : H + 2 < s.py) (hvy : s.vy ≤ 0) :
    flatInv H s.px s.pz (applyPhysics env cs (flatWorld cs H) (0, 0, 0) (some H) s) := by
  have hv1a : (-20 : ℚ) ≤ max (min s.vy 20) (-20) := le_max_right _ _
  have hv1b : max (min s.vy 20) (-20) ≤ 0 :=
    max_le (le_trans (min_le_left _ _) hvy) (by norm_num)
  simp only [applyPhysics]
  rw [if_neg (by linarith : ¬ (s.py - 2 < H - 1 / 10))]
  by_cases hsnap : s.py - 2 - H ≤ 1 / 20
  · rw [if_pos hsnap]
    dsimp only
    rw [if_neg (by simp : ¬ (¬ (true = true) ∨ (0 : ℚ) < 0))]
    rw [horizontalMove_zero]
    dsimp only
    rw [if_neg Bool.false_ne_true]
    have hfin := finalGroundAdjust_grounded env cs hcs H hH
        ⟨s.px, H + 2, s.pz, s.vx, 0, s.vz, true⟩ hx hz rfl
        (by show H + 2 - 2 - H ≤ (1 : ℚ); linarith)
    rw [hfin]
    exact ⟨rfl, rfl, Or.inl ⟨rfl, rfl, rfl⟩⟩
  · rw [if_neg hsnap]
    dsimp only
    rw [if_pos (show ¬ (false = true) ∨
        (0 : ℚ) < max (min s.vy 20) (-20) - 49 / 5 * (2 / 125)
      from Or.inl Bool.false_ne_true)]
    rw [horizontalMove_zero]
    dsimp only
    rw [if_neg Bool.false_ne_true]
    have hvs := verticalSubstep_flat env cs hcs H hH
        ⟨s.px, s.py, s.pz, s.vx, max (min s.vy 20) (-20) - 49 / 5 * (2 / 125), s.vz, false⟩
        hx hz hair
        (by show (-21 : ℚ) ≤ max (min s.vy 20) (-20) - 49 / 5 * (2 / 125); linarith)
        (by show max (min s.vy 20) (-20) - 49 / 5 * (2 / 125) ≤ (0 : ℚ); linarith)
        rfl
    obtain ⟨hvpx, hvpz, hvcase⟩ := hvs
    rcases hvcase with ⟨hg1, hg2, hg3, hg4⟩ | ⟨ha1, ha2, ha3⟩
    · have hfin := finalGroundAdjust_grounded env cs hcs H hH
          (verticalSubstep env cs (flatWorld cs H)
            ⟨s.px, s.py, s.pz, s.vx, max (min s.vy 20) (-20) - 49 / 5 * (2 / 125), s.vz,
              false⟩)
          (by rw [hvpx]; exact hx) (by rw [hvpz]; exact hz) hg1 (by linarith)
      rw [hfin]
      exact ⟨hvpx, hvpz, Or.inl ⟨hg1, rfl, hg4⟩⟩
    · rw [finalGroundAdjust_air env cs (flatWorld cs H) _ ha1]
      exact ⟨hvpx, hvpz, Or.inr ⟨ha1, ha2, ha3⟩⟩

/-- One full physics tick preserves the flat-world landing invariant. -/
theorem flatTick_inv (env : MathEnv) (cs : ℕ) (hcs : 0 < cs) (H : ℚ) (hH : 0 ≤ H)
    (x z : ℚ)
    (hx : x - (⌊x / (cs : ℚ)⌋ : ℚ) * cs < (cs : ℚ) / 2)
    (hz : z - (⌊z / (cs : ℚ)⌋ : ℚ) * cs < (cs : ℚ) / 2)
    (s : PState) (hinv : flatInv H x z s) :
    flatInv H x z (physicsTick env cs (flatWorld cs H) (0, 0, 0) s) := by
  obtain ⟨hpx, hpz, hcase⟩ := hinv
  have hsx : s.px - (⌊s.px / (cs : ℚ)⌋ : ℚ) * cs < (cs : ℚ) / 2 := by rw [hpx]; exact hx
  have hsz2 : s.pz - (⌊s.pz / (cs : ℚ)⌋ : ℚ) * cs < (cs : ℚ) / 2 := by rw [hpz]; exact hz
  have hth := getTerrainHeightBelow_flat env cs hcs H hH s.px s.pz hsx hsz2
  simp only [physicsTick]
  rw [hth]
  rcases hcase with ⟨hog, hpy, hvy⟩ | ⟨hog, hair, hvy⟩
  · obtain ⟨h1, h2, h3⟩ := applyPhysics_flat_grounded env cs hcs H hH s hsx hsz2 hog hpy hvy
    exact ⟨h1.trans hpx, h2.trans hpz, h3⟩
  · obtain ⟨h1, h2, h3⟩ := applyPhysics_flat_air env cs hcs H hH s hsx hsz2 hog hair hvy
    exact ⟨h1.trans hpx, h2.trans hpz, h3⟩

/-- **C9**: starting the player airborne (`H + 2 < y₀`, not rising) above the
everywhere-loaded flat world of uniform height `H ≥ 0`, with zero horizontal
velocity effect (the tick ignores `vx`/`vz`) and no walk input, in any state
reachable by iterating the physics tick in which the on-ground flag has
become true, `position.y` equals exactly `H + playerHeight = H + 2` and
`velocity.y` equals `0`. The column hypotheses place the player in the owning
half of its chunk key, where the chunk's height query is defined. -/
theorem C9_flat_landing (env : MathEnv) (cs : ℕ) (hcs : 0 < cs) (H : ℚ) (hH : 0 ≤ H)
    (x0 y0 z0 vx0 vy0 vz0 : ℚ)
    (hx : x0 - (⌊x0 / (cs : ℚ)⌋ : ℚ) * cs < (cs : ℚ) / 2)
    (hz : z0 - (⌊z0 / (cs : ℚ)⌋ : ℚ) * cs < (cs : ℚ) / 2)
    (hy : H + 2 < y0) (hvy0 : vy0 ≤ 0) (n : ℕ)
    (hg : ((physicsTick env cs (flatWorld cs H) (0, 0, 0))^[n]
      ⟨x0, y0, z0, vx0, vy0, vz0, false⟩).onGround = true) :
    ((physicsTick env cs (flatWorld cs H) (0, 0, 0))^[n]
      ⟨x0, y0, z0, vx0, vy0, vz0, false⟩).py = H + 2 ∧
    ((physicsTick env cs (flatWorld cs H) (0, 0, 0))^[n]
      ⟨x0, y0, z0, vx0, vy0, vz0, false⟩).vy = 0 := by
  have hinv : ∀ m : ℕ, flatInv H x0 z0 ((physicsTick env cs (flatWorld cs H) (0, 0, 0))^[m]
      ⟨x0, y0, z0, vx0, vy0, vz0, false⟩) := by
    intro m
    induction m with
    | zero => exact ⟨rfl, rfl, Or.inr ⟨rfl, hy, hvy0⟩⟩
    | succ k ih =>
      rw [Function.iterate_succ_apply']
      exact flatTick_inv env cs hcs H hH x0 z0 hx hz _ ih
  obtain ⟨hpx, hpz, hc⟩ := hinv n
  rcases hc with ⟨hgr, h1, h2⟩ | ⟨hfalse, h1, h2⟩
  · exact ⟨h1, h2⟩
  · rw [hfalse] at hg
    exact absurd hg Bool.false_ne_true

set_option maxRecDepth 100000 in
unseal Rat.add Rat.mul Rat.inv Rat.sub in
/-- Witness for C9: a drop from `1/25` above the surface of the flat world of
height `0` lands in one tick, snapped exactly to head height `2` with zero
vertical velocity. -/
theorem C9_flat_landing_witness :
    ((physicsTick ⟨fun _ => 0, fun _ => 0, fun _ => 0⟩ 64 (flatWorld 64 0) (0, 0, 0))^[1]
      ⟨0, 2 + 1 / 25, 0, 0, 0, 0, false⟩).py = 0 + 2 ∧
    ((physicsTick ⟨fun _ => 0, fun _ => 0, fun _ => 0⟩ 64 (flatWorld 64 0) (0, 0, 0))^[1]
      ⟨0, 2 + 1 / 25, 0, 0, 0, 0, false⟩).vy = 0 :=
  C9_flat_landing ⟨fun _ => 0, fun _ => 0, fun _ => 0⟩ 64 (by norm_num) 0 le_rfl
    0 (2 + 1 / 25) 0 0 0 0
    (by norm_num) (by norm_num) (by norm_num) le_rfl 1 (by decide)

end MiniMinecraft

